import Mathlib

/-!
Verification development for the GeoBridge satellite-risk pipeline.

Shallow embedding of the numeric core of `src/app.py` (the JSON-safety
sanitizer `sanitize_for_json`) and `src/sentinel_utils.py` (the
`process_risk_data` pipeline and the normalization stage of
`array_to_image`).

Floating-point values are modelled by `EF`: either a rational number, or
one of the three non-finite IEEE values (NaN, +inf, -inf).  The pipeline
performs no operation whose result depends on rounding of finite values
(threshold comparisons, sums of small integers, exact divisions), so the
rational idealization is faithful except where a claim is explicitly about
non-finite propagation, which `EF` models exactly (comparisons with NaN are
false, inf - inf = NaN, inf / inf = NaN, and so on).
-/

namespace GeoBridge

/-- Model of a float64 scalar: a rational, or NaN, or one of the two
infinities. -/
inductive EF where
  | nan : EF
  | inf : EF
  | ninf : EF
  | fin : ℚ → EF
deriving DecidableEq

namespace EF

/-- Model of `np.isnan` on a scalar. -/
def isNaN : EF → Bool
  | .nan => true
  | _ => false

/-- Model of `np.isinf` on a scalar. -/
def isInf : EF → Bool
  | .inf => true
  | .ninf => true
  | _ => false

/-- IEEE `>` comparison: any comparison involving NaN is false. -/
def gt : EF → EF → Bool
  | .nan, _ => false
  | _, .nan => false
  | .inf, .inf => false
  | .inf, _ => true
  | .ninf, _ => false
  | .fin _, .inf => false
  | .fin _, .ninf => true
  | .fin a, .fin b => decide (b < a)

/-- IEEE addition on extended floats. -/
def add : EF → EF → EF
  | .nan, _ => .nan
  | _, .nan => .nan
  | .inf, .ninf => .nan
  | .ninf, .inf => .nan
  | .inf, _ => .inf
  | .ninf, _ => .ninf
  | .fin _, .inf => .inf
  | .fin _, .ninf => .ninf
  | .fin a, .fin b => .fin (a + b)

/-- IEEE negation. -/
def neg : EF → EF
  | .nan => .nan
  | .inf => .ninf
  | .ninf => .inf
  | .fin q => .fin (-q)

/-- IEEE subtraction; in particular `inf - inf = NaN`. -/
def sub (a b : EF) : EF := add a (neg b)

/-- IEEE multiplication; in particular `inf * 0 = NaN`. -/
def mul : EF → EF → EF
  | .nan, _ => .nan
  | _, .nan => .nan
  | .inf, .inf => .inf
  | .inf, .ninf => .ninf
  | .ninf, .inf => .ninf
  | .ninf, .ninf => .inf
  | .inf, .fin q => if 0 < q then .inf else if q < 0 then .ninf else .nan
  | .ninf, .fin q => if 0 < q then .ninf else if q < 0 then .inf else .nan
  | .fin q, .inf => if 0 < q then .inf else if q < 0 then .ninf else .nan
  | .fin q, .ninf => if 0 < q then .ninf else if q < 0 then .inf else .nan
  | .fin a, .fin b => .fin (a * b)

/-- IEEE division; in particular `inf / inf = NaN` and division of a
nonzero finite value by (positive) zero gives an infinity. -/
def div : EF → EF → EF
  | .nan, _ => .nan
  | _, .nan => .nan
  | .inf, .inf => .nan
  | .inf, .ninf => .nan
  | .ninf, .inf => .nan
  | .ninf, .ninf => .nan
  | .fin _, .inf => .fin 0
  | .fin _, .ninf => .fin 0
  | .inf, .fin q => if q < 0 then .ninf else .inf
  | .ninf, .fin q => if q < 0 then .inf else .ninf
  | .fin a, .fin b =>
    if b = 0 then (if a = 0 then .nan else if 0 < a then .inf else .ninf)
    else .fin (a / b)

end EF

/-- Round-half-to-even on rationals, the rounding rule of `np.round`. -/
def roundHalfEven (q : ℚ) : ℤ :=
  let f := ⌊q⌋
  let r := q - f
  if r < 1/2 then f
  else if 1/2 < r then f + 1
  else if f % 2 = 0 then f else f + 1

/-- Model of `np.round` on a scalar (half-to-even; NaN and infinities pass
through). -/
def EF.round : EF → EF
  | .fin q => .fin (roundHalfEven q)
  | x => x

/-- Model of `np.clip(x, lo, hi)`, which is `minimum(maximum(x, lo), hi)`:
NaN propagates, `+inf` clips to `hi`, `-inf` clips to `min hi lo`. -/
def EF.clip (lo hi : ℚ) : EF → EF
  | .nan => .nan
  | .inf => .fin hi
  | .ninf => .fin (min hi lo)
  | .fin q => .fin (min hi (max lo q))

/-- Model of `np.maximum` on two scalars: NaN propagates. -/
def EF.max2 (a b : EF) : EF :=
  if a.isNaN || b.isNaN then .nan else if EF.gt a b then a else b

/-- Model of `np.minimum` on two scalars: NaN propagates. -/
def EF.min2 (a b : EF) : EF :=
  if a.isNaN || b.isNaN then .nan else if EF.gt b a then a else b

/-- A 2D numeric grid (numpy 2D array), row-major. -/
abbrev Grid : Type := List (List EF)

/-- All values of a grid, flattened row by row. -/
def flatG (g : Grid) : List EF := g.foldr (fun row acc => row ++ acc) []

/-- Elementwise map over a grid (a vectorized numpy operation). -/
def mapG (f : EF → EF) (g : Grid) : Grid := g.map (fun row => row.map f)

/-- Grid value at row `i`, column `j` (defaulting to 0 out of bounds; all
uses are in bounds). -/
def pixelD (g : Grid) (i j : ℕ) : EF := ((g[i]?.getD [])[j]?).getD (.fin 0)

/-- Shape `(height, width)` of a grid, width read off the first row as
numpy does for a rectangular array. -/
def gShape (g : Grid) : ℕ × ℕ := (g.length, (g.headD []).length)

/-- The grid is rectangular with `h` rows and `w` columns. -/
def GridShape (g : Grid) (h w : ℕ) : Prop :=
  g.length = h ∧ ∀ row ∈ g, row.length = w

instance (g : Grid) (h w : ℕ) : Decidable (GridShape g h w) :=
  inferInstanceAs (Decidable (_ ∧ _))

/-- Model of `np.nanmean` over a list of scalars: mean of the non-NaN
entries (infinities included), NaN if every entry is NaN. -/
def nanmeanL (xs : List EF) : EF :=
  let vs := xs.filter (fun x => !x.isNaN)
  if vs.length = 0 then .nan
  else EF.div (vs.foldl EF.add (.fin 0)) (.fin vs.length)

/-- Model of `np.nanmean` over a grid. -/
def nanmeanG (g : Grid) : EF := nanmeanL (flatG g)

/-- Model of `np.max` over a list (NaN-propagating; numpy raises on an
empty array, which no claim exercises — the `[]` arm is a placeholder). -/
def npMaxL : List EF → EF
  | [] => .nan
  | x :: xs => xs.foldl EF.max2 x

/-- Model of `np.min` over a list (NaN-propagating). -/
def npMinL : List EF → EF
  | [] => .nan
  | x :: xs => xs.foldl EF.min2 x

/-- Model of `np.nanmin` over a list (NaN-ignoring; NaN when all NaN). -/
def nanminL (xs : List EF) : EF := npMinL (xs.filter (fun x => !x.isNaN))

/-- Model of `np.nanmax` over a list (NaN-ignoring; NaN when all NaN). -/
def nanmaxL (xs : List EF) : EF := npMaxL (xs.filter (fun x => !x.isNaN))

/-- Model of a numpy n-dimensional array: a leaf scalar (integer or float)
or a nesting of sub-arrays. -/
inductive NpArr where
  | sI : ℤ → NpArr
  | sF : EF → NpArr
  | arr : List NpArr → NpArr

/-- Model of a Python object reachable by `sanitize_for_json` in
`src/app.py`: dicts, lists, numpy integer and floating scalars, numpy
arrays, Python floats, and the pass-through scalars (int, str, bool,
None). -/
inductive PyObj where
  | dict : List (String × PyObj) → PyObj
  | list : List PyObj → PyObj
  | npInt : ℤ → PyObj
  | npFloat : EF → PyObj
  | ndarray : NpArr → PyObj
  | float : EF → PyObj
  | int : ℤ → PyObj
  | str : String → PyObj
  | bool : Bool → PyObj
  | none : PyObj

mutual

/-- Model of `np.ndarray.tolist`: numpy scalars become the corresponding
Python scalars, sub-arrays become Python lists.  No sanitization happens
here. -/
def NpArr.tolist : NpArr → PyObj
  | .sI n => .int n
  | .sF v => .float v
  | .arr xs => .list (NpArr.tolistL xs)

/-- `tolist` mapped over the children of an array node. -/
def NpArr.tolistL : List NpArr → List PyObj
  | [] => []
  | x :: xs => NpArr.tolist x :: NpArr.tolistL xs

end

mutual

/-- Embedding of `sanitize_for_json` (src/app.py, lines 192-213): dicts
and lists are processed recursively; numpy scalars become Python floats
with NaN/inf replaced by 0.0; numpy arrays are converted with `tolist`
(note: without recursing into the result); Python floats have NaN/inf
replaced by 0.0; everything else passes through unchanged. -/
def sanitize_for_json : PyObj → PyObj
  | .dict kvs => .dict (sanitizeKVs kvs)
  | .list xs => .list (sanitizeList xs)
  | .npInt n => .float (.fin n)
  | .npFloat v => if v.isNaN || v.isInf then .float (.fin 0) else .float v
  | .ndarray a => a.tolist
  | .float v => if v.isNaN || v.isInf then .float (.fin 0) else .float v
  | .int n => .int n
  | .str s => .str s
  | .bool b => .bool b
  | .none => .none

/-- The list comprehension `[sanitize_for_json(item) for item in obj]`. -/
def sanitizeList : List PyObj → List PyObj
  | [] => []
  | x :: xs => sanitize_for_json x :: sanitizeList xs

/-- The dict comprehension over `obj.items()`. -/
def sanitizeKVs : List (String × PyObj) → List (String × PyObj)
  | [] => []
  | (k, x) :: xs => (k, sanitize_for_json x) :: sanitizeKVs xs

end

mutual

/-- A non-finite (NaN or infinite) leaf occurs somewhere in the array. -/
def NpArr.hasNF : NpArr → Bool
  | .sI _ => false
  | .sF v => v.isNaN || v.isInf
  | .arr xs => NpArr.hasNFL xs

/-- `hasNF` over the children of an array node. -/
def NpArr.hasNFL : List NpArr → Bool
  | [] => false
  | x :: xs => NpArr.hasNF x || NpArr.hasNFL xs

end

mutual

/-- A NaN or infinite numeric value occurs somewhere in the structure
(inside numpy arrays included). -/
def PyObj.hasNF : PyObj → Bool
  | .dict kvs => PyObj.hasNFKVs kvs
  | .list xs => PyObj.hasNFL xs
  | .npFloat v => v.isNaN || v.isInf
  | .ndarray a => a.hasNF
  | .float v => v.isNaN || v.isInf
  | _ => false

/-- `hasNF` over the items of a list. -/
def PyObj.hasNFL : List PyObj → Bool
  | [] => false
  | x :: xs => PyObj.hasNF x || PyObj.hasNFL xs

/-- `hasNF` over the values of a dict. -/
def PyObj.hasNFKVs : List (String × PyObj) → Bool
  | [] => false
  | (_, x) :: xs => PyObj.hasNF x || PyObj.hasNFKVs xs

end

mutual

/-- Every numpy array occurring in the structure contains only finite
values (scalars outside arrays are unrestricted). -/
def PyObj.arraysFinite : PyObj → Bool
  | .dict kvs => PyObj.arraysFiniteKVs kvs
  | .list xs => PyObj.arraysFiniteL xs
  | .ndarray a => !a.hasNF
  | _ => true

/-- `arraysFinite` over the items of a list. -/
def PyObj.arraysFiniteL : List PyObj → Bool
  | [] => true
  | x :: xs => PyObj.arraysFinite x && PyObj.arraysFiniteL xs

/-- `arraysFinite` over the values of a dict. -/
def PyObj.arraysFiniteKVs : List (String × PyObj) → Bool
  | [] => true
  | (_, x) :: xs => PyObj.arraysFinite x && PyObj.arraysFiniteKVs xs

end

/-- Vegetation tiering (src/sentinel_utils.py lines 374-382):
`np.where(ndvi > 0.6, 3, np.where(ndvi > 0.2, 5, 7))` at one pixel. -/
def veg_pix (v : EF) : EF :=
  if EF.gt v (.fin (6/10)) then .fin 3
  else if EF.gt v (.fin (2/10)) then .fin 5
  else .fin 7

/-- Water-stress tiering: `np.where(ndmi > 0.3, 3, np.where(ndmi > -0.1, 5, 8))`. -/
def water_pix (v : EF) : EF :=
  if EF.gt v (.fin (3/10)) then .fin 3
  else if EF.gt v (.fin (-1/10)) then .fin 5
  else .fin 8

/-- Urban tiering: `np.where(ndbi > 0.1, 7, np.where(ndbi > -0.2, 4, 2))`. -/
def urban_pix (v : EF) : EF :=
  if EF.gt v (.fin (1/10)) then .fin 7
  else if EF.gt v (.fin (-2/10)) then .fin 4
  else .fin 2

/-- Burn tiering: `np.where(nbr > 0.3, 2, np.where(nbr > 0.1, 5, 8))`. -/
def burn_pix (v : EF) : EF :=
  if EF.gt v (.fin (3/10)) then .fin 2
  else if EF.gt v (.fin (1/10)) then .fin 5
  else .fin 8

/-- Drainage tiering:
`np.where(dv > 0.2, 3, np.where(dv > -0.1, 6, 9))`. -/
def drainage_pix (v : EF) : EF :=
  if EF.gt v (.fin (2/10)) then .fin 3
  else if EF.gt v (.fin (-1/10)) then .fin 6
  else .fin 9

/-- The vegetation risk grid (elementwise `np.where` tiering). -/
def vegetation_risk (g : Grid) : Grid := mapG veg_pix g

/-- The water-stress risk grid. -/
def water_risk (g : Grid) : Grid := mapG water_pix g

/-- The urban risk grid. -/
def urban_risk (g : Grid) : Grid := mapG urban_pix g

/-- The burn risk grid. -/
def burn_risk (g : Grid) : Grid := mapG burn_pix g

/-- The drainage risk grid. -/
def drainage_risk (g : Grid) : Grid := mapG drainage_pix g

/-- Roof risk grid (src/sentinel_utils.py lines 559-564): if
`np.max(v) > np.min(v)` then min-max normalize and map through
`np.round(norm * 8 + 2)`, else a constant grid of 5. -/
def roof_risk (g : Grid) : Grid :=
  let mx := npMaxL (flatG g)
  let mn := npMinL (flatG g)
  if EF.gt mx mn then
    mapG (fun x =>
      EF.round (EF.add (EF.mul (EF.div (EF.sub x mn) (EF.sub mx mn)) (.fin 8)) (.fin 2))) g
  else
    mapG (fun _ => .fin 5) g

/-- Embedding of `get_ndvi_interpretation`. -/
def get_ndvi_interpretation (v : EF) : String :=
  if EF.gt v (.fin (6/10)) then
    "Dense vegetation - lower fire risk, potential storm damage risk"
  else if EF.gt v (.fin (3/10)) then "Moderate vegetation - balanced risk profile"
  else if EF.gt v (.fin (1/10)) then "Sparse vegetation - higher fire risk"
  else "Very sparse/no vegetation - high fire risk, erosion risk"

/-- Embedding of `get_ndmi_interpretation`. -/
def get_ndmi_interpretation (v : EF) : String :=
  if EF.gt v (.fin (3/10)) then "High moisture content - lower fire risk"
  else if EF.gt v (.fin 0) then "Moderate moisture content - medium fire risk"
  else if EF.gt v (.fin (-2/10)) then "Low moisture content - elevated fire risk"
  else "Very low moisture - high fire risk"

/-- Embedding of `get_ndbi_interpretation`. -/
def get_ndbi_interpretation (v : EF) : String :=
  if EF.gt v (.fin (2/10)) then "Dense built-up area - high property density"
  else if EF.gt v (.fin 0) then "Moderate development - medium property density"
  else if EF.gt v (.fin (-2/10)) then "Light development - low property density"
  else "Natural area - minimal built infrastructure"

/-- Embedding of `get_nbr_interpretation`. -/
def get_nbr_interpretation (v : EF) : String :=
  if EF.gt v (.fin (4/10)) then "Healthy vegetation - low fire risk"
  else if EF.gt v (.fin (2/10)) then "Moderate vegetation health - medium fire risk"
  else if EF.gt v (.fin 0) then "Stressed vegetation - elevated fire risk"
  else "Severely stressed/burned vegetation - high fire risk"

/-- Embedding of `get_drainage_interpretation`. -/
def get_drainage_interpretation (v : EF) : String :=
  if EF.gt v (.fin (2/10)) then
    "Good drainage - vegetation thriving with appropriate moisture"
  else if EF.gt v (.fin 0) then "Moderate drainage - some areas may have issues"
  else if EF.gt v (.fin (-2/10)) then "Poor drainage - vegetation stressed despite moisture"
  else "Very poor drainage - high flood/waterlogging risk"

/-- Bilinear sample of `g` (of size `h` by `w`) at fractional coordinates
`(x, y)`, with edge clamping. -/
def bilinear (g : Grid) (h w : ℕ) (x y : ℚ) : EF :=
  let i0 : ℕ := min (h - 1) ⌊x⌋.toNat
  let i1 : ℕ := min (h - 1) (i0 + 1)
  let j0 : ℕ := min (w - 1) ⌊y⌋.toNat
  let j1 : ℕ := min (w - 1) (j0 + 1)
  let fx : ℚ := x - i0
  let fy : ℚ := y - j0
  let top := EF.add (EF.mul (.fin (1 - fy)) (pixelD g i0 j0))
                    (EF.mul (.fin fy) (pixelD g i0 j1))
  let bot := EF.add (EF.mul (.fin (1 - fy)) (pixelD g i1 j0))
                    (EF.mul (.fin fy) (pixelD g i1 j1))
  EF.add (EF.mul (.fin (1 - fx)) top) (EF.mul (.fin fx) bot)

/-- Model of `scipy.ndimage.zoom(g, (H/h, W/w), order=1)`: an output grid
of exactly the target shape, each output pixel sampled from the input by
order-1 (bilinear) interpolation at the back-projected coordinate. -/
def zoomTo (g : Grid) (H W : ℕ) : Grid :=
  let h := g.length
  let w := (g.headD []).length
  (List.range H).map (fun (i : ℕ) =>
    (List.range W).map (fun (j : ℕ) =>
      bilinear g h w ((i : ℚ) * (h : ℚ) / (H : ℚ)) ((j : ℚ) * (w : ℚ) / (W : ℚ))))

/-- One entry of the `index_values` dict: a per-factor record (raw-mean
key, raw mean, interpretation string), or the bare `composite_risk`
scalar. -/
inductive IVal where
  | entry (key : String) (raw : EF) (interp : String) : IVal
  | scalar (v : EF) : IVal
deriving DecidableEq

/-- The accumulating state of one `process_risk_data` run: the
`risk_layers` dict, the `index_values` dict (both insertion-ordered), and
the `reference_shape`. -/
structure St where
  layers : List (String × Grid)
  ivals : List (String × IVal)
  ref : Option (ℕ × ℕ)
deriving DecidableEq

/-- The initial state (`risk_layers = {}`, `index_values = {}`,
`reference_shape = None`). -/
def initSt : St := ⟨[], [], Option.none⟩

/-- The shared spatial-alignment idiom of the non-first factors: if the
reference shape is set and differs from the grid's shape, zoom to it;
if the reference shape is unset, establish it from this grid. -/
def alignToRef (st : St) (g0 : Grid) : Grid × Option (ℕ × ℕ) :=
  match st.ref with
  | Option.some rs =>
    (if gShape g0 ≠ rs then zoomTo g0 rs.1 rs.2 else g0, Option.some rs)
  | Option.none => (g0, Option.some (gShape g0))

/-- Vegetation factor (processed first; sets the reference shape from its
own grid, with no alignment step). -/
def step_veg (st : St) (inp : Option Grid) : St :=
  match inp with
  | Option.none => st
  | Option.some g =>
    { layers := st.layers ++ [("vegetation_health", vegetation_risk g)],
      ivals := st.ivals ++ [("vegetation_health",
        IVal.entry "raw_ndvi" (nanmeanG g) (get_ndvi_interpretation (nanmeanG g)))],
      ref := Option.some (gShape g) }

/-- The shared shape of the five non-first factor sections: optional
alignment to the reference shape, a converter producing the risk grid,
and an `index_values` entry (raw-mean key, `np.nanmean` of the aligned
grid, interpretation string). -/
def step_aligned (name key : String) (conv : Grid → Grid) (interp : EF → String)
    (st : St) (inp : Option Grid) : St :=
  match inp with
  | Option.none => st
  | Option.some g0 =>
    let a := alignToRef st g0
    { layers := st.layers ++ [(name, conv a.1)],
      ivals := st.ivals ++ [(name, IVal.entry key (nanmeanG a.1) (interp (nanmeanG a.1)))],
      ref := a.2 }

/-- Water-stress factor. -/
def step_water : St → Option Grid → St :=
  step_aligned "water_stress" "raw_ndmi" water_risk get_ndmi_interpretation

/-- Urban factor. -/
def step_urban : St → Option Grid → St :=
  step_aligned "urban_areas" "raw_ndbi" urban_risk get_ndbi_interpretation

/-- Burn factor. -/
def step_burn : St → Option Grid → St :=
  step_aligned "burn_areas" "raw_nbr" burn_risk get_nbr_interpretation

/-- Roof factor (min-max normalization converter, fixed interpretation
string). -/
def step_roof : St → Option Grid → St :=
  step_aligned "roof_risk" "roof_analysis" roof_risk
    (fun _ => "Custom roof material analysis for hail/storm vulnerability")

/-- Drainage factor. -/
def step_drainage : St → Option Grid → St :=
  step_aligned "drainage_risk" "drainage_analysis" drainage_risk get_drainage_interpretation

/-- The six factor sections of `process_risk_data`, in source order.  Each
argument is the channel-0 grid of the corresponding raw data, or
`Option.none` when that factor's input is absent (`is None`). -/
def run_factors (v w u b r d : Option Grid) : St :=
  step_drainage (step_roof (step_burn (step_urban (step_water (step_veg initSt v) w) u) b) r) d

/-- The value returned by `process_risk_data`: either the no-data 2-tuple
`(neutral grid, summary dict)` or the 3-tuple
`(composite grid, index_values, risk_values)`. -/
inductive RiskResult where
  | noData (grid : Grid) (message : String) : RiskResult
  | ok (composite : Grid) (indexValues : List (String × IVal))
       (riskValues : List (String × EF)) : RiskResult
deriving DecidableEq

/-- Whether the result is the 3-tuple form. -/
def RiskResult.isOk : RiskResult → Bool
  | .ok _ _ _ => true
  | .noData _ _ => false

/-- The `index_values` entry of a factor in a 3-tuple result. -/
def ivLookup : RiskResult → String → Option IVal
  | .ok _ iv _, k => iv.lookup k
  | .noData _ _, _ => Option.none

/-- The `risk_values` entry of a factor in a 3-tuple result. -/
def rvLookup : RiskResult → String → Option EF
  | .ok _ _ rv, k => rv.lookup k
  | .noData _ _, _ => Option.none

/-- The first `index_values` entry of a 3-tuple result (the entry of the
first processed factor). -/
def ivHead : RiskResult → Option (String × IVal)
  | .ok _ iv _ => iv.head?
  | .noData _ _ => Option.none

/-- `np.zeros(reference_shape)`. -/
def zerosG (h w : ℕ) : Grid := List.replicate h (List.replicate w (.fin 0))

/-- Elementwise grid addition (`total_risk += layer_data`). -/
def addGrid (a b : Grid) : Grid := List.zipWith (List.zipWith EF.add) a b

/-- Embedding of `process_risk_data` (src/sentinel_utils.py lines
343-669): run the six factor sections, then combine.  With no factor
present, return the neutral 256 by 256 grid of 5.0 and the no-data
message (a 2-tuple in the source).  Otherwise sum the risk layers, divide
by their count, clip to [1, 10], append the `composite_risk` scalar to
`index_values`, and build `risk_values` as the per-layer `np.nanmean`.
The source reads `reference_shape` here, which is provably set whenever a
layer exists; the `(0, 0)` default is never used. -/
def process_risk_data (v w u b r d : Option Grid) : RiskResult :=
  let st := run_factors v w u b r d
  if st.layers.isEmpty then
    .noData (List.replicate 256 (List.replicate 256 (.fin 5))) "No satellite data available"
  else
    let rs := st.ref.getD (0, 0)
    let total := st.layers.foldl (fun acc lg => addGrid acc lg.2) (zerosG rs.1 rs.2)
    let n := st.layers.length
    let composite0 :=
      if 0 < n then mapG (fun x => EF.div x (.fin n)) total
      else List.replicate rs.1 (List.replicate rs.2 (.fin 5))
    let composite := mapG (EF.clip 1 10) composite0
    .ok composite
      (st.ivals ++ [("composite_risk", IVal.scalar (nanmeanG composite))])
      (st.layers.map (fun lg => (lg.1, nanmeanG lg.2)))

/-- Model of `np.nan_to_num(x, nan=0, posinf=255, neginf=0)` on a scalar
(src/sentinel_utils.py line 1325). -/
def nan_to_num (v : EF) : EF :=
  match v with
  | .nan => .fin 0
  | .inf => .fin 255
  | .ninf => .fin 0
  | x => x

/-- Truncation toward zero of a rational, the rounding used when a float64
is cast to an integer dtype. -/
def ratTrunc (q : ℚ) : ℤ := if q < 0 then -⌊-q⌋ else ⌊q⌋

/-- Model of `.astype(np.uint8)` on a scalar known to be finite after the
scaling (the cast of a NaN or infinity is left at 0; no claim reaches
it). -/
def toUint8 (v : EF) : ℕ :=
  match v with
  | .fin q => (ratTrunc q).toNat % 256
  | _ => 0

/-- The finite part of a scalar (0 for non-finite; used only where the
value is provably finite). -/
def finPart (v : EF) : ℚ :=
  match v with
  | .fin q => q
  | _ => 0

/-- Embedding of the `normalize=True` branch of `array_to_image`
(src/sentinel_utils.py lines 1323-1360), up to the 8-bit intensity grid:
non-finite cleanup with `nan_to_num`, defaulting of `min_val`/`max_val`
to `np.nanmin`/`np.nanmax` of the cleaned grid, `np.clip` to that range,
affine scaling (or a zero grid when `max_val == min_val`), then `* 255`
and the uint8 cast. -/
def normalized_intensity (arr : Grid) (minv maxv : Option ℚ) : List (List ℕ) :=
  let img := mapG nan_to_num arr
  let mn : ℚ := minv.getD (finPart (nanminL (flatG img)))
  let mx : ℚ := maxv.getD (finPart (nanmaxL (flatG img)))
  let clipped := mapG (EF.clip mn mx) img
  let scaled :=
    if mx ≠ mn then
      mapG (fun x => EF.div (EF.sub x (.fin mn)) (.fin (mx - mn))) clipped
    else
      mapG (fun _ => .fin 0) clipped
  scaled.map (fun row => row.map (fun x => toUint8 (EF.mul x (.fin 255))))

/-- Spec-side description for the reference-shape claim: the shape of the
first present factor input, in processing order.  (Stated from the spec's
words "the (height, width) of the first successfully processed factor";
compared with the shape the embedded pipeline actually records.) -/
def spec_firstFactorShape (v w u b r d : Option Grid) : Option (ℕ × ℕ) :=
  match v with
  | Option.some g => Option.some (gShape g)
  | Option.none =>
    match w with
    | Option.some g => Option.some (gShape g)
    | Option.none =>
      match u with
      | Option.some g => Option.some (gShape g)
      | Option.none =>
        match b with
        | Option.some g => Option.some (gShape g)
        | Option.none =>
          match r with
          | Option.some g => Option.some (gShape g)
          | Option.none =>
            match d with
            | Option.some g => Option.some (gShape g)
            | Option.none => Option.none

/-- The factor names of the present inputs, in processing order. -/
def presentNames (v w u b r d : Option Grid) : List String :=
  (if v.isSome then ["vegetation_health"] else []) ++
  (if w.isSome then ["water_stress"] else []) ++
  (if u.isSome then ["urban_areas"] else []) ++
  (if b.isSome then ["burn_areas"] else []) ++
  (if r.isSome then ["roof_risk"] else []) ++
  (if d.isSome then ["drainage_risk"] else [])

/-- Arithmetic mean of a list of scalars, as the composite-aggregator
claim states it: the sum divided by the count. -/
def meanEF (xs : List EF) : EF :=
  EF.div (xs.foldl EF.add (.fin 0)) (.fin xs.length)

/-- The value is one of a converter's finitely many tier values. -/
def memTiers (v : EF) (ts : List ℚ) : Bool := ts.any (fun t => v == .fin t)

/-- The value is an integer in the range [2, 10] (the roof converter's
normalized tier set). -/
def roofTier (v : EF) : Bool :=
  match v with
  | .fin q => q.den == 1 && decide ((2 : ℚ) ≤ q) && decide (q ≤ (10 : ℚ))
  | _ => false

/-- Every value of the grid satisfies the predicate. -/
def allG (p : EF → Bool) (g : Grid) : Bool := (flatG g).all p

/-- The grid contains an infinite value. -/
def hasInfG (g : Grid) : Bool := (flatG g).any EF.isInf

/-- The grid is rectangular as numpy arrays are: every row has the
length of the first row. -/
def RectG (g : Grid) : Prop := GridShape g (gShape g).1 (gShape g).2

instance (g : Grid) : Decidable (RectG g) :=
  inferInstanceAs (Decidable (GridShape g (gShape g).1 (gShape g).2))

/-- The reference shape after one factor section, as a function of the
reference shape before it and that factor's input. -/
def refAfter (cur : Option (ℕ × ℕ)) (inp : Option Grid) : Option (ℕ × ℕ) :=
  match cur with
  | Option.some rs => Option.some rs
  | Option.none =>
    match inp with
    | Option.some g => Option.some (gShape g)
    | Option.none => Option.none

/-- The run invariant: an unset reference shape means no layer yet, and a
set reference shape bounds every stored risk layer. -/
def StInv (st : St) : Prop :=
  (st.ref = Option.none → st.layers = []) ∧
  ∀ rs, st.ref = Option.some rs → ∀ lg ∈ st.layers, GridShape lg.2 rs.1 rs.2

/-- The scalar is `-inf` or a finite value at most `q` (what membership in
a list with NaN-propagating maximum `fin q` guarantees). -/
def leFin (x : EF) (q : ℚ) : Prop := x = EF.ninf ∨ ∃ r, x = EF.fin r ∧ r ≤ q

/-- The scalar is `+inf` or a finite value at least `q`. -/
def geFin (x : EF) (q : ℚ) : Prop := x = EF.inf ∨ ∃ r, x = EF.fin r ∧ q ≤ r

/-! Lemmas about the sanitizer. -/

mutual

theorem hasNF_tolist : ∀ a : NpArr, a.hasNF = false → (a.tolist).hasNF = false
  | .sI _, _ => rfl
  | .sF v, h => by simpa [NpArr.tolist, PyObj.hasNF, NpArr.hasNF] using h
  | .arr xs, h => by
    simp only [NpArr.tolist, PyObj.hasNF]
    exact hasNF_tolistL xs (by simpa [NpArr.hasNF] using h)

theorem hasNF_tolistL : ∀ xs : List NpArr, NpArr.hasNFL xs = false →
    PyObj.hasNFL (NpArr.tolistL xs) = false
  | [], _ => rfl
  | x :: xs, h => by
    simp only [NpArr.hasNFL, Bool.or_eq_false_iff] at h
    simp only [NpArr.tolistL, PyObj.hasNFL, Bool.or_eq_false_iff]
    exact ⟨hasNF_tolist x h.1, hasNF_tolistL xs h.2⟩

end

mutual

theorem hasNF_sanitize : ∀ x : PyObj, x.arraysFinite = true →
    (sanitize_for_json x).hasNF = false
  | .dict kvs, h => by
    simp only [sanitize_for_json, PyObj.hasNF]
    exact hasNF_sanitizeKVs kvs (by simpa [PyObj.arraysFinite] using h)
  | .list xs, h => by
    simp only [sanitize_for_json, PyObj.hasNF]
    exact hasNF_sanitizeL xs (by simpa [PyObj.arraysFinite] using h)
  | .npInt _, _ => rfl
  | .npFloat v, _ => by
    simp only [sanitize_for_json]
    split
    · rfl
    · simp_all [PyObj.hasNF]
  | .ndarray a, h => by
    simp only [sanitize_for_json]
    exact hasNF_tolist a (by simpa [PyObj.arraysFinite] using h)
  | .float v, _ => by
    simp only [sanitize_for_json]
    split
    · rfl
    · simp_all [PyObj.hasNF]
  | .int _, _ => rfl
  | .str _, _ => rfl
  | .bool _, _ => rfl
  | .none, _ => rfl

theorem hasNF_sanitizeL : ∀ xs : List PyObj, PyObj.arraysFiniteL xs = true →
    PyObj.hasNFL (sanitizeList xs) = false
  | [], _ => rfl
  | x :: xs, h => by
    simp only [PyObj.arraysFiniteL, Bool.and_eq_true] at h
    simp only [sanitizeList, PyObj.hasNFL, Bool.or_eq_false_iff]
    exact ⟨hasNF_sanitize x h.1, hasNF_sanitizeL xs h.2⟩

theorem hasNF_sanitizeKVs : ∀ kvs : List (String × PyObj),
    PyObj.arraysFiniteKVs kvs = true → PyObj.hasNFKVs (sanitizeKVs kvs) = false
  | [], _ => rfl
  | (k, x) :: kvs, h => by
    simp only [PyObj.arraysFiniteKVs, Bool.and_eq_true] at h
    simp only [sanitizeKVs, PyObj.hasNFKVs, Bool.or_eq_false_iff]
    exact ⟨hasNF_sanitize x h.1, hasNF_sanitizeKVs kvs h.2⟩

end

mutual

theorem sanitize_tolist : ∀ a : NpArr, a.hasNF = false →
    sanitize_for_json (a.tolist) = a.tolist
  | .sI _, _ => rfl
  | .sF v, h => by
    simp only [NpArr.hasNF, Bool.or_eq_false_iff] at h
    simp [NpArr.tolist, sanitize_for_json, h.1, h.2]
  | .arr xs, h => by
    simp only [NpArr.tolist, sanitize_for_json, PyObj.list.injEq]
    exact sanitize_tolistL xs (by simpa [NpArr.hasNF] using h)

theorem sanitize_tolistL : ∀ xs : List NpArr, NpArr.hasNFL xs = false →
    sanitizeList (NpArr.tolistL xs) = NpArr.tolistL xs
  | [], _ => rfl
  | x :: xs, h => by
    simp only [NpArr.hasNFL, Bool.or_eq_false_iff] at h
    simp only [NpArr.tolistL, sanitizeList, List.cons.injEq]
    exact ⟨sanitize_tolist x h.1, sanitize_tolistL xs h.2⟩

end

mutual

theorem sanitize_idem : ∀ x : PyObj, x.arraysFinite = true →
    sanitize_for_json (sanitize_for_json x) = sanitize_for_json x
  | .dict kvs, h => by
    simp only [sanitize_for_json, PyObj.dict.injEq]
    exact sanitize_idemKVs kvs (by simpa [PyObj.arraysFinite] using h)
  | .list xs, h => by
    simp only [sanitize_for_json, PyObj.list.injEq]
    exact sanitize_idemL xs (by simpa [PyObj.arraysFinite] using h)
  | .npInt n, _ => by simp [sanitize_for_json, EF.isNaN, EF.isInf]
  | .npFloat v, _ => by
    simp only [sanitize_for_json]
    split
    · simp [sanitize_for_json, EF.isNaN, EF.isInf]
    · simp_all [sanitize_for_json]
  | .ndarray a, h => by
    simp only [sanitize_for_json]
    exact sanitize_tolist a (by simpa [PyObj.arraysFinite] using h)
  | .float v, _ => by
    simp only [sanitize_for_json]
    split
    · simp [sanitize_for_json, EF.isNaN, EF.isInf]
    · simp_all [sanitize_for_json]
  | .int _, _ => rfl
  | .str _, _ => rfl
  | .bool _, _ => rfl
  | .none, _ => rfl

theorem sanitize_idemL : ∀ xs : List PyObj, PyObj.arraysFiniteL xs = true →
    sanitizeList (sanitizeList xs) = sanitizeList xs
  | [], _ => rfl
  | x :: xs, h => by
    simp only [PyObj.arraysFiniteL, Bool.and_eq_true] at h
    simp only [sanitizeList, List.cons.injEq]
    exact ⟨sanitize_idem x h.1, sanitize_idemL xs h.2⟩

theorem sanitize_idemKVs : ∀ kvs : List (String × PyObj),
    PyObj.arraysFiniteKVs kvs = true → sanitizeKVs (sanitizeKVs kvs) = sanitizeKVs kvs
  | [], _ => rfl
  | (k, x) :: kvs, h => by
    simp only [PyObj.arraysFiniteKVs, Bool.and_eq_true] at h
    simp only [sanitizeKVs, List.cons.injEq, Prod.mk.injEq]
    exact ⟨⟨by simp, sanitize_idem x h.1⟩, sanitize_idemKVs kvs h.2⟩

end

/-! Claim C1 (corrected), C2 (corrected), C5 (confirmed). -/

/-- C1 counterexample: a NaN inside a numpy array survives
`sanitize_for_json`, because arrays are converted with `tolist` without
recursing into the result — so the output does contain a NaN. -/
theorem C1_counterexample :
    PyObj.hasNF (sanitize_for_json (PyObj.ndarray (NpArr.arr [NpArr.sF EF.nan]))) = true := rfl

/-- C1 (amended): for every nested structure whose numpy arrays contain
only finite values, the result of `sanitize_for_json` contains no NaN and
no infinite value; NaN/infinite scalars outside arrays are replaced by
0.0. -/
theorem C1_sanitize_no_nonfinite (x : PyObj) (h : x.arraysFinite = true) :
    (sanitize_for_json x).hasNF = false :=
  hasNF_sanitize x h

/-- C1 witness: the spec's own example input, a dict with a NaN scalar and
an infinite value inside a plain list. -/
theorem C1_witness :
    (PyObj.dict [("a", PyObj.float EF.nan),
      ("b", PyObj.list [PyObj.float (EF.fin 1), PyObj.float EF.inf])]).arraysFinite = true ∧
    (sanitize_for_json (PyObj.dict [("a", PyObj.float EF.nan),
      ("b", PyObj.list [PyObj.float (EF.fin 1), PyObj.float EF.inf])])).hasNF = false :=
  ⟨rfl, C1_sanitize_no_nonfinite _ rfl⟩

/-- C2 counterexample: `sanitize_for_json` is not idempotent on a numpy
array containing NaN — the first pass turns the array into a plain list
still holding the NaN, and the second pass then replaces it by 0.0. -/
theorem C2_counterexample :
    sanitize_for_json (sanitize_for_json (PyObj.ndarray (NpArr.arr [NpArr.sF EF.nan]))) ≠
    sanitize_for_json (PyObj.ndarray (NpArr.arr [NpArr.sF EF.nan])) := by
  intro h
  have h1 : PyObj.list [PyObj.float (EF.fin 0)] = PyObj.list [PyObj.float EF.nan] := h
  simp at h1

/-- C2 (amended): `sanitize_for_json` is idempotent on every nested
structure whose numpy arrays contain only finite values. -/
theorem C2_sanitize_idempotent (x : PyObj) (h : x.arraysFinite = true) :
    sanitize_for_json (sanitize_for_json x) = sanitize_for_json x :=
  sanitize_idem x h

/-- C2 witness: idempotence at the spec's example structure. -/
theorem C2_witness :
    (PyObj.dict [("a", PyObj.float EF.nan),
      ("b", PyObj.list [PyObj.float (EF.fin 1), PyObj.float EF.inf])]).arraysFinite = true ∧
    sanitize_for_json (sanitize_for_json (PyObj.dict [("a", PyObj.float EF.nan),
      ("b", PyObj.list [PyObj.float (EF.fin 1), PyObj.float EF.inf])])) =
    sanitize_for_json (PyObj.dict [("a", PyObj.float EF.nan),
      ("b", PyObj.list [PyObj.float (EF.fin 1), PyObj.float EF.inf])]) :=
  ⟨rfl, C2_sanitize_idempotent _ rfl⟩

/-- C5 (confirmed): with zero present factor inputs, `process_risk_data`
returns (totally, without raising) the 2-tuple of a constant 5.0 grid of
the deterministic default shape 256 by 256 and the no-data summary
message. -/
theorem C5_no_data_neutral :
    process_risk_data Option.none Option.none Option.none Option.none Option.none Option.none =
      RiskResult.noData (List.replicate 256 (List.replicate 256 (EF.fin 5)))
        "No satellite data available" := rfl

/-! Grid pixel lemmas. -/

theorem pixelD_mapG_of_nan (f : EF → EF) (g : Grid) (i j : ℕ)
    (h : pixelD g i j = EF.nan) : pixelD (mapG f g) i j = f EF.nan := by
  unfold pixelD mapG at *
  cases hg : g[i]? with
  | none =>
    rw [hg] at h
    simp only [Option.getD_none, List.getElem?_nil] at h
    exact absurd h (by simp)
  | some row =>
    rw [hg] at h
    simp only [Option.getD_some] at h
    cases hr : row[j]? with
    | none =>
      rw [hr] at h
      simp only [Option.getD_none] at h
      exact absurd h (by simp)
    | some x =>
      rw [hr] at h
      simp only [Option.getD_some] at h
      subst h
      rw [List.getElem?_map, hg]
      simp [List.getElem?_map, hr]

/-! Claim C10 (confirmed). -/

/-- C10 (confirmed): in each of the five threshold-based converters, a
pixel whose raw value is NaN falls through every `>` comparison (IEEE
comparisons with NaN are false) and is assigned that converter's final
else-branch tier: vegetation 7, water 8, urban 2, burn 8, drainage 9. -/
theorem C10_nan_gets_else_tier (g : Grid) (i j : ℕ) (h : pixelD g i j = EF.nan) :
    pixelD (vegetation_risk g) i j = EF.fin 7 ∧
    pixelD (water_risk g) i j = EF.fin 8 ∧
    pixelD (urban_risk g) i j = EF.fin 2 ∧
    pixelD (burn_risk g) i j = EF.fin 8 ∧
    pixelD (drainage_risk g) i j = EF.fin 9 :=
  ⟨(pixelD_mapG_of_nan veg_pix g i j h).trans rfl,
   (pixelD_mapG_of_nan water_pix g i j h).trans rfl,
   (pixelD_mapG_of_nan urban_pix g i j h).trans rfl,
   (pixelD_mapG_of_nan burn_pix g i j h).trans rfl,
   (pixelD_mapG_of_nan drainage_pix g i j h).trans rfl⟩

/-! Evaluation lemmas for the IEEE comparison. -/

theorem gt_nan_left (x : EF) : EF.gt EF.nan x = false := by cases x <;> rfl

theorem gt_nan_right (x : EF) : EF.gt x EF.nan = false := by cases x <;> rfl

theorem gt_ninf_left (x : EF) : EF.gt EF.ninf x = false := by cases x <;> rfl

theorem gt_inf_right (x : EF) : EF.gt x EF.inf = false := by cases x <;> rfl

theorem gt_inf_ninf : EF.gt EF.inf EF.ninf = true := rfl

theorem gt_inf_fin (q : ℚ) : EF.gt EF.inf (EF.fin q) = true := rfl

theorem gt_fin_ninf (q : ℚ) : EF.gt (EF.fin q) EF.ninf = true := rfl

theorem gt_fin_fin (a b : ℚ) : EF.gt (EF.fin a) (EF.fin b) = decide (b < a) := rfl

/-! Lemmas about flattened grids and the NaN-propagating fold extrema. -/

theorem flat_cons (row : List EF) (rows : Grid) : flatG (row :: rows) = row ++ flatG rows := rfl

theorem flat_mapG (f : EF → EF) : ∀ g : Grid, flatG (mapG f g) = (flatG g).map f
  | [] => rfl
  | row :: rows => by
    show (row.map f) ++ flatG (mapG f rows) = (row ++ flatG rows).map f
    rw [List.map_append, flat_mapG f rows]

theorem allG_mapG (p : EF → Bool) (f : EF → EF) (g : Grid) :
    allG p (mapG f g) = (flatG g).all (fun x => p (f x)) := by
  rw [allG, flat_mapG, List.all_map]
  rfl

theorem flat_mapG_ne_nil (f : EF → EF) (g : Grid) (h : flatG g ≠ []) :
    flatG (mapG f g) ≠ [] := by
  rw [flat_mapG]
  simpa using h

theorem foldl_max2_result : ∀ (xs : List EF) (acc : EF),
    xs.foldl EF.max2 acc = EF.nan ∨ xs.foldl EF.max2 acc = acc ∨ xs.foldl EF.max2 acc ∈ xs
  | [], acc => Or.inr (Or.inl rfl)
  | x :: xs, acc => by
    rcases foldl_max2_result xs (EF.max2 acc x) with h | h | h
    · exact Or.inl h
    · rw [List.foldl_cons]
      rw [h]
      unfold EF.max2
      split
      · exact Or.inl rfl
      · split
        · exact Or.inr (Or.inl rfl)
        · exact Or.inr (Or.inr (List.mem_cons_self x xs))
    · exact Or.inr (Or.inr (List.mem_cons_of_mem x h))

theorem foldl_min2_result : ∀ (xs : List EF) (acc : EF),
    xs.foldl EF.min2 acc = EF.nan ∨ xs.foldl EF.min2 acc = acc ∨ xs.foldl EF.min2 acc ∈ xs
  | [], acc => Or.inr (Or.inl rfl)
  | x :: xs, acc => by
    rcases foldl_min2_result xs (EF.min2 acc x) with h | h | h
    · exact Or.inl h
    · rw [List.foldl_cons]
      rw [h]
      unfold EF.min2
      split
      · exact Or.inl rfl
      · split
        · exact Or.inr (Or.inl rfl)
        · exact Or.inr (Or.inr (List.mem_cons_self x xs))
    · exact Or.inr (Or.inr (List.mem_cons_of_mem x h))

theorem leFin_max2 (a b : EF) (q : ℚ) (h : leFin (EF.max2 a b) q) :
    leFin a q ∧ leFin b q := by
  unfold EF.max2 at h
  by_cases hn : (a.isNaN || b.isNaN) = true
  · rw [if_pos hn] at h
    rcases h with h | ⟨r, h, _⟩ <;> simp at h
  · rw [if_neg hn] at h
    simp only [Bool.or_eq_true, not_or] at hn
    by_cases hg : EF.gt a b = true
    · rw [if_pos hg] at h
      refine ⟨h, ?_⟩
      cases b with
      | nan => simp [EF.isNaN] at hn
      | inf => rw [gt_inf_right] at hg; exact absurd hg Bool.false_ne_true
      | ninf => exact Or.inl rfl
      | fin r =>
        rcases h with h | ⟨p, hp, hpq⟩
        · rw [h, gt_ninf_left] at hg; exact absurd hg Bool.false_ne_true
        · rw [hp, gt_fin_fin] at hg
          exact Or.inr ⟨r, rfl, le_trans (le_of_lt (of_decide_eq_true hg)) hpq⟩
    · rw [if_neg hg] at h
      refine ⟨?_, h⟩
      cases a with
      | nan => simp [EF.isNaN] at hn
      | ninf => exact Or.inl rfl
      | inf =>
        exfalso
        cases b with
        | nan => simp [EF.isNaN] at hn
        | inf => rcases h with h | ⟨r, h, _⟩ <;> exact EF.noConfusion h
        | ninf => exact hg (by rw [gt_inf_ninf])
        | fin r => exact hg (by rw [gt_inf_fin])
      | fin p =>
        cases b with
        | nan => simp [EF.isNaN] at hn
        | inf => exfalso; rcases h with h | ⟨r, h, _⟩ <;> exact EF.noConfusion h
        | ninf => exact absurd (gt_fin_ninf p) hg
        | fin r =>
          rcases h with h | ⟨r2, h2, hq⟩
          · exact absurd h (by simp)
          · have hr : ¬ (r < p) := by
              intro hlt
              exact hg (by rw [gt_fin_fin]; exact decide_eq_true hlt)
            injection h2 with h3
            exact Or.inr ⟨p, rfl, le_trans (not_lt.mp hr) (h3 ▸ hq)⟩

theorem geFin_min2 (a b : EF) (q : ℚ) (h : geFin (EF.min2 a b) q) :
    geFin a q ∧ geFin b q := by
  unfold EF.min2 at h
  by_cases hn : (a.isNaN || b.isNaN) = true
  · rw [if_pos hn] at h
    rcases h with h | ⟨r, h, _⟩ <;> simp at h
  · rw [if_neg hn] at h
    simp only [Bool.or_eq_true, not_or] at hn
    by_cases hg : EF.gt b a = true
    · rw [if_pos hg] at h
      refine ⟨h, ?_⟩
      cases b with
      | nan => simp [EF.isNaN] at hn
      | ninf => rw [gt_ninf_left] at hg; exact absurd hg Bool.false_ne_true
      | inf => exact Or.inl rfl
      | fin r =>
        rcases h with h | ⟨p, hp, hpq⟩
        · rw [h, gt_inf_right] at hg; exact absurd hg Bool.false_ne_true
        · rw [hp, gt_fin_fin] at hg
          exact Or.inr ⟨r, rfl, le_trans hpq (le_of_lt (of_decide_eq_true hg))⟩
    · rw [if_neg hg] at h
      refine ⟨?_, h⟩
      cases a with
      | nan => simp [EF.isNaN] at hn
      | inf => exact Or.inl rfl
      | ninf =>
        exfalso
        cases b with
        | nan => simp [EF.isNaN] at hn
        | ninf => rcases h with h | ⟨r, h, _⟩ <;> exact EF.noConfusion h
        | inf => exact hg (by rw [gt_inf_ninf])
        | fin r => exact hg (by rw [gt_fin_ninf])
      | fin p =>
        cases b with
        | nan => simp [EF.isNaN] at hn
        | ninf => exfalso; rcases h with h | ⟨r, h, _⟩ <;> exact EF.noConfusion h
        | inf => exact absurd (gt_inf_fin p) hg
        | fin r =>
          rcases h with h | ⟨r2, h2, hq⟩
          · exact absurd h (by simp)
          · have hr : ¬ (p < r) := by
              intro hlt
              exact hg (by rw [gt_fin_fin]; exact decide_eq_true hlt)
            injection h2 with h3
            exact Or.inr ⟨p, rfl, le_trans (h3 ▸ hq) (not_lt.mp hr)⟩

theorem foldl_max2_fin_le : ∀ (xs : List EF) (acc : EF) (q : ℚ),
    xs.foldl EF.max2 acc = EF.fin q → leFin acc q ∧ ∀ x ∈ xs, leFin x q
  | [], acc, q => fun h => ⟨Or.inr ⟨q, h, le_refl q⟩, by simp⟩
  | x :: xs, acc, q => fun h => by
    have ih := foldl_max2_fin_le xs (EF.max2 acc x) q h
    have hsplit := leFin_max2 acc x q ih.1
    refine ⟨hsplit.1, ?_⟩
    intro y hy
    rcases List.mem_cons.mp hy with hy | hy
    · exact hy ▸ hsplit.2
    · exact ih.2 y hy

theorem foldl_min2_fin_ge : ∀ (xs : List EF) (acc : EF) (q : ℚ),
    xs.foldl EF.min2 acc = EF.fin q → geFin acc q ∧ ∀ x ∈ xs, geFin x q
  | [], acc, q => fun h => ⟨Or.inr ⟨q, h, le_refl q⟩, by simp⟩
  | x :: xs, acc, q => fun h => by
    have ih := foldl_min2_fin_ge xs (EF.min2 acc x) q h
    have hsplit := geFin_min2 acc x q ih.1
    refine ⟨hsplit.1, ?_⟩
    intro y hy
    rcases List.mem_cons.mp hy with hy | hy
    · exact hy ▸ hsplit.2
    · exact ih.2 y hy

/-! Rounding bounds. -/

theorem le_roundHalfEven (a : ℤ) (t : ℚ) (h : (a : ℚ) ≤ t) : a ≤ roundHalfEven t := by
  have hf : a ≤ ⌊t⌋ := Int.le_floor.mpr h
  simp only [roundHalfEven]
  split
  · exact hf
  · split
    · omega
    · split
      · exact hf
      · omega

theorem roundHalfEven_le (b : ℤ) (t : ℚ) (h : t ≤ (b : ℚ)) : roundHalfEven t ≤ b := by
  have hfb : ⌊t⌋ ≤ b := by
    have := Int.floor_le_floor h
    simpa using this
  have hft : (⌊t⌋ : ℚ) ≤ t := Int.floor_le t
  simp only [roundHalfEven]
  split
  · exact hfb
  · rcases lt_or_eq_of_le hfb with hlt | heq
    · split
      · omega
      · split
        · exact hfb
        · omega
    · exfalso
      rename_i h1
      rw [not_lt] at h1
      have : t - (⌊t⌋ : ℚ) ≤ 0 := by
        rw [heq]
        linarith
      linarith

/-! Per-converter tier membership. -/

theorem veg_pix_mem (v : EF) : memTiers (veg_pix v) [3, 5, 7] = true := by
  unfold veg_pix
  split
  · rfl
  · split <;> rfl

theorem water_pix_mem (v : EF) : memTiers (water_pix v) [3, 5, 8] = true := by
  unfold water_pix
  split
  · rfl
  · split <;> rfl

theorem urban_pix_mem (v : EF) : memTiers (urban_pix v) [2, 4, 7] = true := by
  unfold urban_pix
  split
  · rfl
  · split <;> rfl

theorem burn_pix_mem (v : EF) : memTiers (burn_pix v) [2, 5, 8] = true := by
  unfold burn_pix
  split
  · rfl
  · split <;> rfl

theorem drainage_pix_mem (v : EF) : memTiers (drainage_pix v) [3, 6, 9] = true := by
  unfold drainage_pix
  split
  · rfl
  · split <;> rfl

theorem roof_pix_mem (nq mq r : ℚ) (h1 : nq ≤ r) (h2 : r ≤ mq) (hlt : nq < mq) :
    roofTier (EF.round (EF.add (EF.mul
      (EF.div (EF.sub (EF.fin r) (EF.fin nq)) (EF.sub (EF.fin mq) (EF.fin nq)))
      (EF.fin 8)) (EF.fin 2))) = true := by
  have hb : mq - nq ≠ 0 := sub_ne_zero.mpr (ne_of_gt hlt)
  have hdiv : EF.div (EF.sub (EF.fin r) (EF.fin nq)) (EF.sub (EF.fin mq) (EF.fin nq)) =
      EF.fin ((r - nq) / (mq - nq)) := by
    show EF.div (EF.fin (r + -nq)) (EF.fin (mq + -nq)) = _
    rw [EF.div]
    rw [if_neg (by rw [← sub_eq_add_neg]; exact hb)]
    rw [sub_eq_add_neg, sub_eq_add_neg]
  rw [hdiv]
  show roofTier (EF.round (EF.fin ((r - nq) / (mq - nq) * 8 + 2))) = true
  set t : ℚ := (r - nq) / (mq - nq) * 8 + 2 with ht
  have h0 : (0 : ℚ) ≤ (r - nq) / (mq - nq) :=
    div_nonneg (by linarith) (by linarith)
  have h1' : (r - nq) / (mq - nq) ≤ 1 :=
    (div_le_one (by linarith)).mpr (by linarith)
  have h2t : (2 : ℚ) ≤ t := by rw [ht]; linarith
  have h10t : t ≤ (10 : ℚ) := by rw [ht]; linarith
  have hlo : (2 : ℤ) ≤ roundHalfEven t := le_roundHalfEven 2 t (by exact_mod_cast h2t)
  have hhi : roundHalfEven t ≤ (10 : ℤ) := roundHalfEven_le 10 t (by exact_mod_cast h10t)
  show roofTier (EF.fin ((roundHalfEven t : ℤ) : ℚ)) = true
  unfold roofTier
  simp only [Rat.den_intCast, Bool.and_eq_true, beq_iff_eq, decide_eq_true_eq]
  refine ⟨⟨trivial, ?_⟩, ?_⟩
  · exact_mod_cast hlo
  · exact_mod_cast hhi

theorem mem_flat_isInf (g : Grid) (x : EF) (hx : x ∈ flatG g) (hinf : x.isInf = true) :
    hasInfG g = true := by
  unfold hasInfG
  rw [List.any_eq_true]
  exact ⟨x, hx, hinf⟩

/-! Claim C6 (corrected). -/

/-- C6 counterexample: the roof converter applied to a non-empty grid
containing an infinite value produces a NaN risk pixel
(`(inf - min) / (max - min) = inf / inf = NaN`), which is not an integer
tier in [2, 10] and not the constant 5 fallback. -/
theorem C6_counterexample :
    allG roofTier (roof_risk [[EF.fin 0, EF.inf]]) = false ∧
    flatG [[EF.fin 0, EF.inf]] ≠ [] := by
  constructor
  · simp [roof_risk, flatG, npMaxL, npMinL, EF.max2, EF.min2, EF.gt, EF.isNaN, mapG,
      EF.sub, EF.add, EF.neg, EF.div, EF.mul, EF.round, allG, roofTier, memTiers]
  · simp [flatG]

/-- C6 (amended): for every non-empty input grid, each of the five
threshold converters produces values only in its fixed tier set
(vegetation 3/5/7, water 3/5/8, urban 2/4/7, burn 2/5/8, drainage 3/6/9),
for any input values including NaN and infinities; the roof converter
produces only integers in [2, 10] or the constant 5 fallback provided the
input grid contains no infinite value (NaN is fine); and every produced
risk grid is non-empty. -/
theorem C6_tier_sets (g : Grid) (hne : flatG g ≠ []) :
    allG (fun x => memTiers x [3, 5, 7]) (vegetation_risk g) = true ∧
    allG (fun x => memTiers x [3, 5, 8]) (water_risk g) = true ∧
    allG (fun x => memTiers x [2, 4, 7]) (urban_risk g) = true ∧
    allG (fun x => memTiers x [2, 5, 8]) (burn_risk g) = true ∧
    allG (fun x => memTiers x [3, 6, 9]) (drainage_risk g) = true ∧
    (hasInfG g = false → allG roofTier (roof_risk g) = true) ∧
    flatG (vegetation_risk g) ≠ [] ∧ flatG (water_risk g) ≠ [] ∧
    flatG (urban_risk g) ≠ [] ∧ flatG (burn_risk g) ≠ [] ∧
    flatG (drainage_risk g) ≠ [] ∧ flatG (roof_risk g) ≠ [] := by
  refine ⟨?_, ?_, ?_, ?_, ?_, ?_, ?_, ?_, ?_, ?_, ?_, ?_⟩
  · rw [vegetation_risk, allG_mapG, List.all_eq_true]
    exact fun x _ => veg_pix_mem x
  · rw [water_risk, allG_mapG, List.all_eq_true]
    exact fun x _ => water_pix_mem x
  · rw [urban_risk, allG_mapG, List.all_eq_true]
    exact fun x _ => urban_pix_mem x
  · rw [burn_risk, allG_mapG, List.all_eq_true]
    exact fun x _ => burn_pix_mem x
  · rw [drainage_risk, allG_mapG, List.all_eq_true]
    exact fun x _ => drainage_pix_mem x
  · intro hinf
    simp only [roof_risk]
    cases hmx : npMaxL (flatG g) with
    | nan =>
      rw [gt_nan_left, if_neg Bool.false_ne_true, allG_mapG, List.all_eq_true]
      intro x _
      rfl
    | ninf =>
      rw [gt_ninf_left, if_neg Bool.false_ne_true, allG_mapG, List.all_eq_true]
      intro x _
      rfl
    | inf =>
      exfalso
      cases hfl : flatG g with
      | nil => rw [hfl] at hmx; exact EF.noConfusion hmx
      | cons y ys =>
        rw [hfl, npMaxL] at hmx
        rcases foldl_max2_result ys y with hr | hr | hr
        · rw [hmx] at hr; exact EF.noConfusion hr
        · have hy : y = EF.inf := hr.symm.trans hmx
          have hm : EF.inf ∈ flatG g := by
            rw [hfl, hy]
            exact List.mem_cons_self EF.inf ys
          rw [mem_flat_isInf g EF.inf hm rfl] at hinf
          exact Bool.noConfusion hinf
        · rw [hmx] at hr
          have hm : EF.inf ∈ flatG g := by
            rw [hfl]
            exact List.mem_cons_of_mem y hr
          rw [mem_flat_isInf g EF.inf hm rfl] at hinf
          exact Bool.noConfusion hinf
    | fin mq =>
      cases hmn : npMinL (flatG g) with
      | nan =>
        rw [gt_nan_right, if_neg Bool.false_ne_true, allG_mapG, List.all_eq_true]
        intro x _
        rfl
      | inf =>
        rw [gt_inf_right, if_neg Bool.false_ne_true, allG_mapG, List.all_eq_true]
        intro x _
        rfl
      | ninf =>
        exfalso
        cases hfl : flatG g with
        | nil => rw [hfl] at hmn; exact EF.noConfusion hmn
        | cons y ys =>
          rw [hfl, npMinL] at hmn
          rcases foldl_min2_result ys y with hr | hr | hr
          · rw [hmn] at hr; exact EF.noConfusion hr
          · have hy : y = EF.ninf := hr.symm.trans hmn
            have hm : EF.ninf ∈ flatG g := by
              rw [hfl, hy]
              exact List.mem_cons_self EF.ninf ys
            rw [mem_flat_isInf g EF.ninf hm rfl] at hinf
            exact Bool.noConfusion hinf
          · rw [hmn] at hr
            have hm : EF.ninf ∈ flatG g := by
              rw [hfl]
              exact List.mem_cons_of_mem y hr
            rw [mem_flat_isInf g EF.ninf hm rfl] at hinf
            exact Bool.noConfusion hinf
      | fin nq =>
        by_cases hgt : EF.gt (EF.fin mq) (EF.fin nq) = true
        · rw [if_pos hgt]
          have hnm : nq < mq := by
            rw [gt_fin_fin] at hgt
            exact of_decide_eq_true hgt
          rw [allG_mapG, List.all_eq_true]
          intro x hx
          have hle : leFin x mq := by
            cases hfl : flatG g with
            | nil => rw [hfl] at hx; exact absurd hx (List.not_mem_nil x)
            | cons y ys =>
              rw [hfl, npMaxL] at hmx
              have hb := foldl_max2_fin_le ys y mq hmx
              rw [hfl] at hx
              rcases List.mem_cons.mp hx with hx | hx
              · exact hx ▸ hb.1
              · exact hb.2 x hx
          have hge : geFin x nq := by
            cases hfl : flatG g with
            | nil => rw [hfl] at hx; exact absurd hx (List.not_mem_nil x)
            | cons y ys =>
              rw [hfl, npMinL] at hmn
              have hb := foldl_min2_fin_ge ys y nq hmn
              rw [hfl] at hx
              rcases List.mem_cons.mp hx with hx | hx
              · exact hx ▸ hb.1
              · exact hb.2 x hx
          rcases hle with hle | ⟨r, hr, hrq⟩
          · rw [mem_flat_isInf g x hx (by rw [hle]; rfl)] at hinf
            exact Bool.noConfusion hinf
          · rcases hge with hge | ⟨r2, hr2, hr2q⟩
            · rw [mem_flat_isInf g x hx (by rw [hge]; rfl)] at hinf
              exact Bool.noConfusion hinf
            · rw [hr]
              have hrr : r2 = r := by rw [hr] at hr2; exact (EF.fin.inj hr2).symm
              exact roof_pix_mem nq mq r (hrr ▸ hr2q) hrq hnm
        · rw [if_neg hgt, allG_mapG, List.all_eq_true]
          intro x _
          rfl
  · exact flat_mapG_ne_nil veg_pix g hne
  · exact flat_mapG_ne_nil water_pix g hne
  · exact flat_mapG_ne_nil urban_pix g hne
  · exact flat_mapG_ne_nil burn_pix g hne
  · exact flat_mapG_ne_nil drainage_pix g hne
  · simp only [roof_risk]
    split
    · exact flat_mapG_ne_nil _ g hne
    · exact flat_mapG_ne_nil _ g hne

/-- C6 witness: a concrete finite two-pixel grid. -/
theorem C6_witness :
    flatG [[EF.fin 0, EF.fin 1]] ≠ [] ∧
    hasInfG [[EF.fin 0, EF.fin 1]] = false ∧
    allG roofTier (roof_risk [[EF.fin 0, EF.fin 1]]) = true ∧
    allG (fun x => memTiers x [3, 5, 7]) (vegetation_risk [[EF.fin 0, EF.fin 1]]) = true :=
  ⟨by simp [flatG], rfl,
   (C6_tier_sets [[EF.fin 0, EF.fin 1]] (by simp [flatG])).2.2.2.2.2.1 rfl,
   (C6_tier_sets [[EF.fin 0, EF.fin 1]] (by simp [flatG])).1⟩

/-- C10 witness: the single-NaN grid. -/
theorem C10_witness :
    pixelD [[EF.nan]] 0 0 = EF.nan ∧
    (pixelD (vegetation_risk [[EF.nan]]) 0 0 = EF.fin 7 ∧
     pixelD (water_risk [[EF.nan]]) 0 0 = EF.fin 8 ∧
     pixelD (urban_risk [[EF.nan]]) 0 0 = EF.fin 2 ∧
     pixelD (burn_risk [[EF.nan]]) 0 0 = EF.fin 8 ∧
     pixelD (drainage_risk [[EF.nan]]) 0 0 = EF.fin 9) :=
  ⟨rfl, C10_nan_gets_else_tier [[EF.nan]] 0 0 rfl⟩

/-! Claim C4 (corrected): factor-name bookkeeping lemmas. -/

theorem names_step_veg (st : St) (inp : Option Grid) :
    (step_veg st inp).layers.map Prod.fst =
      st.layers.map Prod.fst ++ (if inp.isSome then ["vegetation_health"] else []) := by
  cases inp <;> simp [step_veg]

theorem names_step_aligned (name key : String) (conv : Grid → Grid) (interp : EF → String)
    (st : St) (inp : Option Grid) :
    (step_aligned name key conv interp st inp).layers.map Prod.fst =
      st.layers.map Prod.fst ++ (if inp.isSome then [name] else []) := by
  cases inp <;> simp [step_aligned]

theorem run_factors_names (v w u b r d : Option Grid) :
    (run_factors v w u b r d).layers.map Prod.fst = presentNames v w u b r d := by
  simp only [run_factors, step_water, step_urban, step_burn, step_roof, step_drainage,
    names_step_aligned, names_step_veg, presentNames, initSt, List.append_assoc]
  simp

/-- C4 counterexample: with zero present factors `process_risk_data`
returns the 2-tuple no-data form, not the claimed 3-tuple. -/
theorem C4_counterexample :
    (process_risk_data Option.none Option.none Option.none Option.none Option.none
      Option.none).isOk = false := rfl

/-- C4 (amended): whenever at least one factor input is present,
`process_risk_data` returns the 3-tuple: a composite grid, `index_values`
ending with the `composite_risk` scalar (the `np.nanmean` of the
composite), and `risk_values` mapping each processed factor name — exactly
the present ones, in order — to the `np.nanmean` of its risk layer.  With
no factor present it instead returns the 2-tuple no-data form (the
counterexample). -/
theorem C4_three_tuple (v w u b r d : Option Grid)
    (h : v.isSome = true ∨ w.isSome = true ∨ u.isSome = true ∨ b.isSome = true ∨
      r.isSome = true ∨ d.isSome = true) :
    ∃ c iv rv, process_risk_data v w u b r d = RiskResult.ok c iv rv ∧
      rv = (run_factors v w u b r d).layers.map (fun lg => (lg.1, nanmeanG lg.2)) ∧
      rv.map Prod.fst = presentNames v w u b r d ∧
      iv.getLast? = Option.some ("composite_risk", IVal.scalar (nanmeanG c)) := by
  have hpn : presentNames v w u b r d ≠ [] := by
    rcases h with h | h | h | h | h | h <;>
      · rw [Option.isSome_iff_exists] at h
        obtain ⟨g, hg⟩ := h
        subst hg
        simp [presentNames, List.append_eq_nil]
  have hnames := run_factors_names v w u b r d
  have hlay : (run_factors v w u b r d).layers ≠ [] := by
    intro heq
    rw [heq] at hnames
    simp only [List.map_nil] at hnames
    exact hpn hnames.symm
  have hisEmpty : (run_factors v w u b r d).layers.isEmpty = false := by
    cases hl : (run_factors v w u b r d).layers with
    | nil => exact absurd hl hlay
    | cons a as => rfl
  simp only [process_risk_data, hisEmpty, Bool.false_eq_true, if_false]
  refine ⟨_, _, _, rfl, rfl, ?_, ?_⟩
  · rw [List.map_map]
    simpa using hnames
  · rw [List.getLast?_concat]

/-- C4 witness: a single present vegetation factor. -/
theorem C4_witness :
    ∃ c iv rv, process_risk_data (Option.some [[EF.fin 1]]) Option.none Option.none
        Option.none Option.none Option.none = RiskResult.ok c iv rv ∧
      rv = (run_factors (Option.some [[EF.fin 1]]) Option.none Option.none Option.none
        Option.none Option.none).layers.map (fun lg => (lg.1, nanmeanG lg.2)) ∧
      rv.map Prod.fst = presentNames (Option.some [[EF.fin 1]]) Option.none Option.none
        Option.none Option.none Option.none ∧
      iv.getLast? = Option.some ("composite_risk", IVal.scalar (nanmeanG c)) :=
  C4_three_tuple _ _ _ _ _ _ (Or.inl rfl)

/-! Claim C7 (corrected): all-NaN inputs. -/

theorem nanmeanL_all_nan (xs : List EF) (h : ∀ x ∈ xs, x = EF.nan) :
    nanmeanL xs = EF.nan := by
  have hf : xs.filter (fun x => !x.isNaN) = [] := by
    rw [List.filter_eq_nil_iff]
    intro a ha
    rw [h a ha]
    simp [EF.isNaN]
  simp [nanmeanL, hf]

theorem foldl_add_const : ∀ (xs : List EF) (a c : ℚ), (∀ x ∈ xs, x = EF.fin c) →
    xs.foldl EF.add (EF.fin a) = EF.fin (a + xs.length * c)
  | [], a, c, _ => by simp
  | x :: xs, a, c, h => by
    have hx : x = EF.fin c := h x (List.mem_cons_self x xs)
    rw [List.foldl_cons, hx]
    show xs.foldl EF.add (EF.fin (a + c)) = _
    rw [foldl_add_const xs (a + c) c (fun y hy => h y (List.mem_cons_of_mem x hy))]
    congr 1
    simp only [List.length_cons]
    push_cast
    ring

theorem nanmeanL_const (xs : List EF) (c : ℚ) (hne : xs ≠ []) (h : ∀ x ∈ xs, x = EF.fin c) :
    nanmeanL xs = EF.fin c := by
  have hf : xs.filter (fun x => !x.isNaN) = xs := by
    rw [List.filter_eq_self]
    intro a ha
    rw [h a ha]
    rfl
  have hlen : xs.length ≠ 0 := by
    intro h0
    exact hne (List.length_eq_zero.mp h0)
  have hq : ((xs.length : ℚ)) ≠ 0 := Nat.cast_ne_zero.mpr hlen
  rw [nanmeanL]
  simp only [hf]
  rw [if_neg hlen, foldl_add_const xs 0 c h]
  have hv : (0 + (xs.length : ℚ) * c) / (xs.length : ℚ) = c := by
    field_simp
  simp [EF.div, hq, hv]

theorem mapG_flat_const (f : EF → EF) (g : Grid) (c : EF)
    (h : ∀ x ∈ flatG g, f x = c) : ∀ y ∈ flatG (mapG f g), y = c := by
  intro y hy
  rw [flat_mapG] at hy
  obtain ⟨x, hx, hfx⟩ := List.mem_map.mp hy
  rw [← hfx]
  exact h x hx

theorem foldl_max2_nan_acc : ∀ xs : List EF, xs.foldl EF.max2 EF.nan = EF.nan
  | [] => rfl
  | x :: xs => by
    rw [List.foldl_cons]
    have hm : EF.max2 EF.nan x = EF.nan := rfl
    rw [hm]
    exact foldl_max2_nan_acc xs

theorem roof_risk_all_nan (g : Grid) (hne : flatG g ≠ []) (hnan : ∀ x ∈ flatG g, x = EF.nan) :
    roof_risk g = mapG (fun _ => EF.fin 5) g := by
  have hmx : npMaxL (flatG g) = EF.nan := by
    cases hfl : flatG g with
    | nil => exact absurd hfl hne
    | cons y ys =>
      have hy : y = EF.nan := hnan y (by rw [hfl]; exact List.mem_cons_self y ys)
      rw [npMaxL, hy]
      exact foldl_max2_nan_acc ys
  simp [roof_risk, hmx, gt_nan_left]

theorem lookup_cons_self {β : Type} (k : String) (v : β) (t : List (String × β)) :
    List.lookup k ((k, v) :: t) = Option.some v := by
  simp [List.lookup]

/-- C7 counterexample: with an all-NaN vegetation input, the summary
records `np.nanmean` of an all-NaN grid, which is NaN — not the claimed
0.0-or-neutral value. -/
theorem C7_counterexample :
    ivLookup (process_risk_data (Option.some [[EF.nan]]) Option.none Option.none Option.none
        Option.none Option.none) "vegetation_health" =
      Option.some (IVal.entry "raw_ndvi" EF.nan
        "Very sparse/no vegetation - high fire risk, erosion risk") := rfl

/-- C7 (amended): for every converter with an entirely-NaN raw input
grid, `process_risk_data` does not raise: it returns the 3-tuple form,
the factor's risk grid is produced and its mean risk (the else-branch
tier, or the roof fallback 5) is recorded in `risk_values` — but the
recorded raw mean in the factor's summary is NaN (the `np.nanmean` of an
all-NaN array), not 0.0; the NaN is only replaced when the web layer runs
the JSON sanitizer. -/
theorem C7_all_nan_inputs (g : Grid) (hne : flatG g ≠ []) (hnan : ∀ x ∈ flatG g, x = EF.nan) :
    ((process_risk_data (Option.some g) Option.none Option.none Option.none Option.none
        Option.none).isOk = true ∧
      rvLookup (process_risk_data (Option.some g) Option.none Option.none Option.none
        Option.none Option.none) "vegetation_health" = Option.some (EF.fin 7) ∧
      ivHead (process_risk_data (Option.some g) Option.none Option.none Option.none
        Option.none Option.none) = Option.some ("vegetation_health", IVal.entry "raw_ndvi"
        EF.nan "Very sparse/no vegetation - high fire risk, erosion risk")) ∧
    ((process_risk_data Option.none (Option.some g) Option.none Option.none Option.none
        Option.none).isOk = true ∧
      rvLookup (process_risk_data Option.none (Option.some g) Option.none Option.none
        Option.none Option.none) "water_stress" = Option.some (EF.fin 8) ∧
      ivHead (process_risk_data Option.none (Option.some g) Option.none Option.none
        Option.none Option.none) = Option.some ("water_stress", IVal.entry "raw_ndmi"
        EF.nan "Very low moisture - high fire risk")) ∧
    ((process_risk_data Option.none Option.none (Option.some g) Option.none Option.none
        Option.none).isOk = true ∧
      rvLookup (process_risk_data Option.none Option.none (Option.some g) Option.none
        Option.none Option.none) "urban_areas" = Option.some (EF.fin 2) ∧
      ivHead (process_risk_data Option.none Option.none (Option.some g) Option.none
        Option.none Option.none) = Option.some ("urban_areas", IVal.entry "raw_ndbi"
        EF.nan "Natural area - minimal built infrastructure")) ∧
    ((process_risk_data Option.none Option.none Option.none (Option.some g) Option.none
        Option.none).isOk = true ∧
      rvLookup (process_risk_data Option.none Option.none Option.none (Option.some g)
        Option.none Option.none) "burn_areas" = Option.some (EF.fin 8) ∧
      ivHead (process_risk_data Option.none Option.none Option.none (Option.some g)
        Option.none Option.none) = Option.some ("burn_areas", IVal.entry "raw_nbr"
        EF.nan "Severely stressed/burned vegetation - high fire risk")) ∧
    ((process_risk_data Option.none Option.none Option.none Option.none (Option.some g)
        Option.none).isOk = true ∧
      rvLookup (process_risk_data Option.none Option.none Option.none Option.none
        (Option.some g) Option.none) "roof_risk" = Option.some (EF.fin 5) ∧
      ivHead (process_risk_data Option.none Option.none Option.none Option.none
        (Option.some g) Option.none) = Option.some ("roof_risk", IVal.entry "roof_analysis"
        EF.nan "Custom roof material analysis for hail/storm vulnerability")) ∧
    ((process_risk_data Option.none Option.none Option.none Option.none Option.none
        (Option.some g)).isOk = true ∧
      rvLookup (process_risk_data Option.none Option.none Option.none Option.none
        Option.none (Option.some g)) "drainage_risk" = Option.some (EF.fin 9) ∧
      ivHead (process_risk_data Option.none Option.none Option.none Option.none
        Option.none (Option.some g)) = Option.some ("drainage_risk", IVal.entry
        "drainage_analysis" EF.nan "Very poor drainage - high flood/waterlogging risk")) := by
  have hmg : nanmeanG g = EF.nan := nanmeanL_all_nan _ hnan
  have hveg : nanmeanG (vegetation_risk g) = EF.fin 7 :=
    nanmeanL_const _ 7 (flat_mapG_ne_nil _ _ hne)
      (mapG_flat_const _ _ _ (fun x hx => by rw [hnan x hx]; rfl))
  have hwat : nanmeanG (water_risk g) = EF.fin 8 :=
    nanmeanL_const _ 8 (flat_mapG_ne_nil _ _ hne)
      (mapG_flat_const _ _ _ (fun x hx => by rw [hnan x hx]; rfl))
  have hurb : nanmeanG (urban_risk g) = EF.fin 2 :=
    nanmeanL_const _ 2 (flat_mapG_ne_nil _ _ hne)
      (mapG_flat_const _ _ _ (fun x hx => by rw [hnan x hx]; rfl))
  have hbur : nanmeanG (burn_risk g) = EF.fin 8 :=
    nanmeanL_const _ 8 (flat_mapG_ne_nil _ _ hne)
      (mapG_flat_const _ _ _ (fun x hx => by rw [hnan x hx]; rfl))
  have hroo : nanmeanG (roof_risk g) = EF.fin 5 := by
    rw [roof_risk_all_nan g hne hnan]
    exact nanmeanL_const _ 5 (flat_mapG_ne_nil _ _ hne)
      (mapG_flat_const _ _ _ (fun x hx => rfl))
  have hdra : nanmeanG (drainage_risk g) = EF.fin 9 :=
    nanmeanL_const _ 9 (flat_mapG_ne_nil _ _ hne)
      (mapG_flat_const _ _ _ (fun x hx => by rw [hnan x hx]; rfl))
  refine ⟨⟨rfl, ?_, ?_⟩, ⟨rfl, ?_, ?_⟩, ⟨rfl, ?_, ?_⟩, ⟨rfl, ?_, ?_⟩, ⟨rfl, ?_, ?_⟩,
    ⟨rfl, ?_, ?_⟩⟩
  · show List.lookup "vegetation_health"
      [("vegetation_health", nanmeanG (vegetation_risk g))] = _
    simp [List.lookup, hveg]
  · show Option.some ("vegetation_health", IVal.entry "raw_ndvi" (nanmeanG g)
      (get_ndvi_interpretation (nanmeanG g))) = _
    rw [hmg]
    rfl
  · show List.lookup "water_stress"
      [("water_stress", nanmeanG (water_risk g))] = _
    simp [List.lookup, hwat]
  · show Option.some ("water_stress", IVal.entry "raw_ndmi" (nanmeanG g)
      (get_ndmi_interpretation (nanmeanG g))) = _
    rw [hmg]
    rfl
  · show List.lookup "urban_areas"
      [("urban_areas", nanmeanG (urban_risk g))] = _
    simp [List.lookup, hurb]
  · show Option.some ("urban_areas", IVal.entry "raw_ndbi" (nanmeanG g)
      (get_ndbi_interpretation (nanmeanG g))) = _
    rw [hmg]
    rfl
  · show List.lookup "burn_areas"
      [("burn_areas", nanmeanG (burn_risk g))] = _
    simp [List.lookup, hbur]
  · show Option.some ("burn_areas", IVal.entry "raw_nbr" (nanmeanG g)
      (get_nbr_interpretation (nanmeanG g))) = _
    rw [hmg]
    rfl
  · show List.lookup "roof_risk"
      [("roof_risk", nanmeanG (roof_risk g))] = _
    simp [List.lookup, hroo]
  · show Option.some ("roof_risk", IVal.entry "roof_analysis" (nanmeanG g)
      "Custom roof material analysis for hail/storm vulnerability") = _
    rw [hmg]
  · show List.lookup "drainage_risk"
      [("drainage_risk", nanmeanG (drainage_risk g))] = _
    simp [List.lookup, hdra]
  · show Option.some ("drainage_risk", IVal.entry "drainage_analysis" (nanmeanG g)
      (get_drainage_interpretation (nanmeanG g))) = _
    rw [hmg]
    rfl

/-- C7 witness: the single-pixel all-NaN grid. -/
theorem C7_witness :
    flatG [[EF.nan]] ≠ [] ∧
    rvLookup (process_risk_data Option.none (Option.some [[EF.nan]]) Option.none Option.none
      Option.none Option.none) "water_stress" = Option.some (EF.fin 8) :=
  ⟨by simp [flatG],
   (C7_all_nan_inputs [[EF.nan]] (by simp [flatG])
     (by intro x hx; simpa [flatG] using hx)).2.1.2.1⟩

/-! Claim C3 (confirmed): pixel lemmas for the composite stage. -/

theorem zerosG_shape (h w : ℕ) : GridShape (zerosG h w) h w := by
  constructor
  · simp [zerosG]
  · intro row hr
    rw [zerosG] at hr
    rw [List.eq_of_mem_replicate hr]
    simp

theorem pixelD_zerosG (h w i j : ℕ) (hi : i < h) (hj : j < w) :
    pixelD (zerosG h w) i j = EF.fin 0 := by
  unfold pixelD zerosG
  simp [List.getElem?_replicate, hi, hj]

theorem mapG_shape (f : EF → EF) (g : Grid) (h w : ℕ) (hg : GridShape g h w) :
    GridShape (mapG f g) h w := by
  constructor
  · rw [mapG, List.length_map]
    exact hg.1
  · intro row hr
    rw [mapG] at hr
    obtain ⟨r, hrm, hrf⟩ := List.mem_map.mp hr
    rw [← hrf, List.length_map]
    exact hg.2 r hrm

theorem rowD_zipWith : ∀ (ra rb : List EF) (j : ℕ), j < ra.length → j < rb.length →
    ((List.zipWith EF.add ra rb)[j]?).getD (EF.fin 0) =
      EF.add ((ra[j]?).getD (EF.fin 0)) ((rb[j]?).getD (EF.fin 0))
  | [], _, j, hj, _ => absurd hj (by simp)
  | _ :: _, [], j, _, hj => absurd hj (by simp)
  | x :: xs, y :: ys, 0, _, _ => by
    simp [List.zipWith_cons_cons]
  | x :: xs, y :: ys, j + 1, hj1, hj2 => by
    simp only [List.zipWith_cons_cons, List.getElem?_cons_succ]
    exact rowD_zipWith xs ys j (by simpa using hj1) (by simpa using hj2)

theorem pixelD_addGrid : ∀ (a b : Grid) (i j : ℕ), i < a.length → i < b.length →
    (∀ ra ∈ a, j < ra.length) → (∀ rb ∈ b, j < rb.length) →
    pixelD (addGrid a b) i j = EF.add (pixelD a i j) (pixelD b i j)
  | [], _, i, _, hia, _, _, _ => absurd hia (by simp)
  | _ :: _, [], i, _, _, hib, _, _ => absurd hib (by simp)
  | ra :: as, rb :: bs, 0, j, _, _, hja, hjb => by
    unfold pixelD addGrid
    simp only [List.zipWith_cons_cons, List.getElem?_cons_zero, Option.getD_some]
    exact rowD_zipWith ra rb j (hja ra (List.mem_cons_self ra as))
      (hjb rb (List.mem_cons_self rb bs))
  | ra :: as, rb :: bs, i + 1, j, hia, hib, hja, hjb => by
    unfold pixelD addGrid
    simp only [List.zipWith_cons_cons, List.getElem?_cons_succ]
    exact pixelD_addGrid as bs i j (by simpa using hia) (by simpa using hib)
      (fun r hr => hja r (List.mem_cons_of_mem ra hr))
      (fun r hr => hjb r (List.mem_cons_of_mem rb hr))

theorem addGrid_shape : ∀ (a b : Grid) (h w : ℕ), GridShape a h w → GridShape b h w →
    GridShape (addGrid a b) h w
  | [], _, h, w, ha, hb => by
    rw [addGrid, List.zipWith_nil_left]
    exact ⟨ha.1, by simp⟩
  | _ :: _, [], h, w, ha, hb => by
    rw [addGrid, List.zipWith_nil_right]
    exact ⟨hb.1, by simp⟩
  | ra :: as, rb :: bs, h, w, ha, hb => by
    obtain ⟨ha1, ha2⟩ := ha
    obtain ⟨hb1, hb2⟩ := hb
    constructor
    · rw [addGrid, List.length_zipWith]
      simp only [List.length_cons] at ha1 hb1 ⊢
      omega
    · intro row hr
      rw [addGrid, List.zipWith_cons_cons] at hr
      rcases List.mem_cons.mp hr with hr | hr
      · rw [hr, List.length_zipWith, ha2 ra (List.mem_cons_self ra as),
          hb2 rb (List.mem_cons_self rb bs)]
        simp
      · have hrec := addGrid_shape as bs (as.length) w
          ⟨rfl, fun r h => ha2 r (List.mem_cons_of_mem ra h)⟩
          ⟨by simp only [List.length_cons] at ha1 hb1; omega,
           fun r h => hb2 r (List.mem_cons_of_mem rb h)⟩
        exact hrec.2 row hr

theorem foldl_addGrid_shape : ∀ (ls : List (String × Grid)) (acc : Grid) (h w : ℕ),
    GridShape acc h w → (∀ lg ∈ ls, GridShape lg.2 h w) →
    GridShape (ls.foldl (fun a lg => addGrid a lg.2) acc) h w
  | [], acc, h, w, hacc, _ => hacc
  | lg :: ls, acc, h, w, hacc, hl => by
    rw [List.foldl_cons]
    exact foldl_addGrid_shape ls _ h w
      (addGrid_shape acc lg.2 h w hacc (hl lg (List.mem_cons_self lg ls)))
      (fun x hx => hl x (List.mem_cons_of_mem lg hx))

theorem pixelD_foldl_addGrid : ∀ (ls : List (String × Grid)) (acc : Grid) (h w i j : ℕ),
    GridShape acc h w → (∀ lg ∈ ls, GridShape lg.2 h w) → i < h → j < w →
    pixelD (ls.foldl (fun a lg => addGrid a lg.2) acc) i j =
      ls.foldl (fun s lg => EF.add s (pixelD lg.2 i j)) (pixelD acc i j)
  | [], acc, h, w, i, j, _, _, _, _ => rfl
  | lg :: ls, acc, h, w, i, j, hacc, hl, hi, hj => by
    rw [List.foldl_cons, List.foldl_cons]
    have hlg := hl lg (List.mem_cons_self lg ls)
    rw [pixelD_foldl_addGrid ls _ h w i j
      (addGrid_shape acc lg.2 h w hacc hlg)
      (fun x hx => hl x (List.mem_cons_of_mem lg hx)) hi hj]
    congr 1
    exact pixelD_addGrid acc lg.2 i j (by rw [hacc.1]; exact hi) (by rw [hlg.1]; exact hi)
      (fun r hr => by rw [hacc.2 r hr]; exact hj)
      (fun r hr => by rw [hlg.2 r hr]; exact hj)

theorem pixelD_mapG : ∀ (f : EF → EF) (g : Grid) (i j : ℕ),
    i < g.length → (∀ row ∈ g, j < row.length) →
    pixelD (mapG f g) i j = f (pixelD g i j)
  | _, [], i, _, hi, _ => absurd hi (by simp)
  | f, r :: rs, 0, j, _, hj => by
    unfold pixelD mapG
    simp only [List.map_cons, List.getElem?_cons_zero, Option.getD_some]
    have hjr := hj r (List.mem_cons_self r rs)
    rw [List.getElem?_map, List.getElem?_eq_getElem hjr]
    simp
  | f, r :: rs, i + 1, j, hi, hj => by
    unfold pixelD mapG
    simp only [List.map_cons, List.getElem?_cons_succ]
    exact pixelD_mapG f rs i j (by simpa using hi)
      (fun row hr => hj row (List.mem_cons_of_mem r hr))

theorem composite_pixel (ls : List (String × Grid)) (h w i j : ℕ)
    (hsh : ∀ lg ∈ ls, GridShape lg.2 h w) (hi : i < h) (hj : j < w) :
    pixelD (mapG (EF.clip 1 10) (mapG (fun x => EF.div x (EF.fin (ls.length : ℚ)))
      (ls.foldl (fun acc lg => addGrid acc lg.2) (zerosG h w)))) i j =
    EF.clip 1 10 (meanEF (ls.map (fun lg => pixelD lg.2 i j))) := by
  have hzs := zerosG_shape h w
  have hsum := foldl_addGrid_shape ls (zerosG h w) h w hzs hsh
  have hdiv := mapG_shape (fun x => EF.div x (EF.fin (ls.length : ℚ))) _ h w hsum
  rw [pixelD_mapG (EF.clip 1 10) _ i j (by rw [hdiv.1]; exact hi)
    (fun r hr => by rw [hdiv.2 r hr]; exact hj)]
  rw [pixelD_mapG _ _ i j (by rw [hsum.1]; exact hi)
    (fun r hr => by rw [hsum.2 r hr]; exact hj)]
  rw [pixelD_foldl_addGrid ls (zerosG h w) h w i j hzs hsh hi hj]
  rw [pixelD_zerosG h w i j hi hj]
  rw [meanEF, List.foldl_map, List.length_map]

/-- C3 (confirmed): with at least one factor present and every produced
risk layer of the reference shape, each pixel of the returned composite
grid is the clamp to [1, 10] of the arithmetic mean (sum divided by
count) of the present factors' risk values at that pixel. -/
theorem C3_composite_is_clamped_mean (v w u b r d : Option Grid) (h wd i j : ℕ)
    (hne : (run_factors v w u b r d).layers ≠ [])
    (href : (run_factors v w u b r d).ref = Option.some (h, wd))
    (hsh : ∀ lg ∈ (run_factors v w u b r d).layers, GridShape lg.2 h wd)
    (hi : i < h) (hj : j < wd) :
    ∃ c iv rv, process_risk_data v w u b r d = RiskResult.ok c iv rv ∧
      pixelD c i j = EF.clip 1 10
        (meanEF ((run_factors v w u b r d).layers.map (fun lg => pixelD lg.2 i j))) := by
  have hisEmpty : (run_factors v w u b r d).layers.isEmpty = false := by
    cases hl : (run_factors v w u b r d).layers with
    | nil => exact absurd hl hne
    | cons a as => rfl
  have hn : 0 < (run_factors v w u b r d).layers.length := List.length_pos.mpr hne
  simp only [process_risk_data, hisEmpty, Bool.false_eq_true, if_false, href,
    Option.getD_some]
  rw [if_pos hn]
  refine ⟨_, _, _, rfl, ?_⟩
  exact composite_pixel (run_factors v w u b r d).layers h wd i j hsh hi hj

/-- C3 witness: one present vegetation factor over a single pixel. -/
theorem C3_witness :
    (run_factors (Option.some [[EF.fin 1]]) Option.none Option.none Option.none Option.none
      Option.none).layers ≠ [] ∧
    (run_factors (Option.some [[EF.fin 1]]) Option.none Option.none Option.none Option.none
      Option.none).ref = Option.some (1, 1) ∧
    (∃ c iv rv, process_risk_data (Option.some [[EF.fin 1]]) Option.none Option.none
        Option.none Option.none Option.none = RiskResult.ok c iv rv ∧
      pixelD c 0 0 = EF.clip 1 10 (meanEF ((run_factors (Option.some [[EF.fin 1]])
        Option.none Option.none Option.none Option.none Option.none).layers.map
        (fun lg => pixelD lg.2 0 0)))) := by
  refine ⟨by simp [run_factors, step_veg, step_water, step_urban, step_burn, step_roof,
    step_drainage, step_aligned, initSt], rfl, ?_⟩
  exact C3_composite_is_clamped_mean (Option.some [[EF.fin 1]]) Option.none Option.none
    Option.none Option.none Option.none 1 1 0 0
    (by simp [run_factors, step_veg, step_water, step_urban, step_burn, step_roof,
      step_drainage, step_aligned, initSt])
    rfl
    (by
      intro lg hlg
      simp only [run_factors, step_veg, step_water, step_urban, step_burn, step_roof,
        step_drainage, step_aligned, initSt] at hlg
      rcases List.mem_cons.mp hlg with hlg | hlg
      · rw [hlg]
        constructor
        · simp [vegetation_risk, mapG]
        · intro row hr
          simp only [vegetation_risk, mapG, List.map_cons, List.map_nil] at hr
          rcases List.mem_cons.mp hr with hr | hr
          · rw [hr]
            simp
          · simp at hr
      · simp at hlg)
    (by decide) (by decide)

/-! Claim C9 (confirmed): reference-shape invariant. -/

theorem zoomTo_shape (g : Grid) (H W : ℕ) : GridShape (zoomTo g H W) H W := by
  constructor
  · simp [zoomTo]
  · intro row hr
    simp only [zoomTo] at hr
    obtain ⟨i, _, hrow⟩ := List.mem_map.mp hr
    rw [← hrow]
    simp

theorem roof_risk_shape (g : Grid) (h w : ℕ) (hg : GridShape g h w) :
    GridShape (roof_risk g) h w := by
  simp only [roof_risk]
  split
  · exact mapG_shape _ g h w hg
  · exact mapG_shape _ g h w hg

theorem alignToRef_ref_some (st : St) (g0 : Grid) (rs : ℕ × ℕ)
    (h : st.ref = Option.some rs) : (alignToRef st g0).2 = Option.some rs := by
  unfold alignToRef
  rw [h]

theorem alignToRef_shape_some (st : St) (g0 : Grid) (rs : ℕ × ℕ)
    (h : st.ref = Option.some rs) (hrect : RectG g0) :
    GridShape (alignToRef st g0).1 rs.1 rs.2 := by
  unfold alignToRef
  rw [h]
  show GridShape (if gShape g0 ≠ rs then zoomTo g0 rs.1 rs.2 else g0) rs.1 rs.2
  split
  · exact zoomTo_shape g0 rs.1 rs.2
  · rename_i hsh
    rw [not_not] at hsh
    rw [← hsh]
    exact hrect

theorem alignToRef_of_none (st : St) (g0 : Grid) (h : st.ref = Option.none) :
    (alignToRef st g0).1 = g0 ∧ (alignToRef st g0).2 = Option.some (gShape g0) := by
  unfold alignToRef
  rw [h]
  exact ⟨rfl, rfl⟩

theorem step_aligned_inv (name key : String) (conv : Grid → Grid) (interp : EF → String)
    (hconv : ∀ g h w, GridShape g h w → GridShape (conv g) h w)
    (st : St) (inp : Option Grid) (hst : StInv st)
    (hrect : ∀ g, inp = Option.some g → RectG g) :
    StInv (step_aligned name key conv interp st inp) ∧
    (step_aligned name key conv interp st inp).ref = refAfter st.ref inp := by
  cases inp with
  | none =>
    refine ⟨hst, ?_⟩
    cases href : st.ref <;> simp [step_aligned, refAfter, href]
  | some g0 =>
    cases href : st.ref with
    | some rs =>
      have ha2 := alignToRef_ref_some st g0 rs href
      refine ⟨⟨?_, ?_⟩, ?_⟩
      · intro hnone
        rw [show (step_aligned name key conv interp st (Option.some g0)).ref =
          (alignToRef st g0).2 from rfl, ha2] at hnone
        exact Option.noConfusion hnone
      · intro rs2 hrs2 lg hlg
        rw [show (step_aligned name key conv interp st (Option.some g0)).ref =
          (alignToRef st g0).2 from rfl, ha2] at hrs2
        have hrs : rs2 = rs := (Option.some.inj hrs2).symm
        rw [hrs]
        rw [show (step_aligned name key conv interp st (Option.some g0)).layers =
          st.layers ++ [(name, conv (alignToRef st g0).1)] from rfl] at hlg
        rcases List.mem_append.mp hlg with hlg | hlg
        · exact hst.2 rs href lg hlg
        · simp only [List.mem_singleton] at hlg
          rw [hlg]
          exact hconv _ rs.1 rs.2 (alignToRef_shape_some st g0 rs href (hrect g0 rfl))
      · rw [show (step_aligned name key conv interp st (Option.some g0)).ref =
          (alignToRef st g0).2 from rfl, ha2]
        rfl
    | none =>
      have ha := alignToRef_of_none st g0 href
      have hlay : st.layers = [] := hst.1 href
      refine ⟨⟨?_, ?_⟩, ?_⟩
      · intro hnone
        rw [show (step_aligned name key conv interp st (Option.some g0)).ref =
          (alignToRef st g0).2 from rfl, ha.2] at hnone
        exact Option.noConfusion hnone
      · intro rs2 hrs2 lg hlg
        rw [show (step_aligned name key conv interp st (Option.some g0)).ref =
          (alignToRef st g0).2 from rfl, ha.2] at hrs2
        have hrs : rs2 = gShape g0 := (Option.some.inj hrs2).symm
        subst hrs
        rw [show (step_aligned name key conv interp st (Option.some g0)).layers =
          st.layers ++ [(name, conv (alignToRef st g0).1)] from rfl, hlay,
          List.nil_append] at hlg
        simp only [List.mem_singleton] at hlg
        rw [hlg, ha.1]
        exact hconv _ _ _ (hrect g0 rfl)
      · rw [show (step_aligned name key conv interp st (Option.some g0)).ref =
          (alignToRef st g0).2 from rfl, ha.2]
        rfl

theorem step_veg_inv (inp : Option Grid) (hrect : ∀ g, inp = Option.some g → RectG g) :
    StInv (step_veg initSt inp) ∧ (step_veg initSt inp).ref = refAfter Option.none inp := by
  cases inp with
  | none =>
    refine ⟨⟨fun _ => rfl, ?_⟩, rfl⟩
    intro rs h
    simp [step_veg, initSt] at h
  | some g =>
    refine ⟨⟨?_, ?_⟩, rfl⟩
    · intro h
      simp [step_veg, initSt] at h
    · intro rs hrs lg hlg
      have hrs2 : rs = gShape g := by
        simpa [step_veg, initSt] using hrs.symm
      subst hrs2
      simp only [step_veg, initSt, List.nil_append, List.mem_singleton] at hlg
      rw [hlg]
      exact mapG_shape veg_pix g _ _ (hrect g rfl)

theorem run_factors_inv (v w u b r d : Option Grid)
    (hv : ∀ g, v = Option.some g → RectG g) (hw : ∀ g, w = Option.some g → RectG g)
    (hu : ∀ g, u = Option.some g → RectG g) (hb : ∀ g, b = Option.some g → RectG g)
    (hr : ∀ g, r = Option.some g → RectG g) (hd : ∀ g, d = Option.some g → RectG g) :
    StInv (run_factors v w u b r d) ∧
    (run_factors v w u b r d).ref =
      refAfter (refAfter (refAfter (refAfter (refAfter (refAfter Option.none v) w) u) b) r)
        d := by
  have h1 := step_veg_inv v hv
  have h2 := step_aligned_inv "water_stress" "raw_ndmi" water_risk get_ndmi_interpretation
    (fun g hh ww hg => mapG_shape water_pix g hh ww hg) _ w h1.1 hw
  have h3 := step_aligned_inv "urban_areas" "raw_ndbi" urban_risk get_ndbi_interpretation
    (fun g hh ww hg => mapG_shape urban_pix g hh ww hg) _ u h2.1 hu
  have h4 := step_aligned_inv "burn_areas" "raw_nbr" burn_risk get_nbr_interpretation
    (fun g hh ww hg => mapG_shape burn_pix g hh ww hg) _ b h3.1 hb
  have h5 := step_aligned_inv "roof_risk" "roof_analysis" roof_risk
    (fun _ => "Custom roof material analysis for hail/storm vulnerability")
    (fun g hh ww hg => roof_risk_shape g hh ww hg) _ r h4.1 hr
  have h6 := step_aligned_inv "drainage_risk" "drainage_analysis" drainage_risk
    get_drainage_interpretation
    (fun g hh ww hg => mapG_shape drainage_pix g hh ww hg) _ d h5.1 hd
  refine ⟨h6.1, ?_⟩
  simp only [run_factors, step_water, step_urban, step_burn, step_roof, step_drainage]
  rw [h6.2, h5.2, h4.2, h3.2, h2.2, h1.2]

/-- C9 (confirmed): within one invocation, the reference shape recorded by
the run equals the shape of the first present factor input — set once,
never reassigned — and every stored risk layer (each produced after
resampling when its input's shape differs) has exactly that reference
shape.  Inputs are assumed rectangular, as numpy arrays are. -/
theorem C9_reference_shape (v w u b r d : Option Grid)
    (hv : ∀ g, v = Option.some g → RectG g) (hw : ∀ g, w = Option.some g → RectG g)
    (hu : ∀ g, u = Option.some g → RectG g) (hb : ∀ g, b = Option.some g → RectG g)
    (hr : ∀ g, r = Option.some g → RectG g) (hd : ∀ g, d = Option.some g → RectG g) :
    (run_factors v w u b r d).ref = spec_firstFactorShape v w u b r d ∧
    ∀ rs, (run_factors v w u b r d).ref = Option.some rs →
      ∀ lg ∈ (run_factors v w u b r d).layers, GridShape lg.2 rs.1 rs.2 := by
  have h := run_factors_inv v w u b r d hv hw hu hb hr hd
  refine ⟨?_, h.1.2⟩
  rw [h.2]
  cases v <;> cases w <;> cases u <;> cases b <;> cases r <;> cases d <;> rfl

/-- C9 witness: a vegetation factor of shape (1, 1) followed by a water
factor of shape (1, 2) that must be resampled. -/
theorem C9_witness :
    (run_factors (Option.some [[EF.fin 0]]) (Option.some [[EF.fin 0, EF.fin 0]]) Option.none
      Option.none Option.none Option.none).ref =
      spec_firstFactorShape (Option.some [[EF.fin 0]]) (Option.some [[EF.fin 0, EF.fin 0]])
        Option.none Option.none Option.none Option.none ∧
    ∀ rs, (run_factors (Option.some [[EF.fin 0]]) (Option.some [[EF.fin 0, EF.fin 0]])
        Option.none Option.none Option.none Option.none).ref = Option.some rs →
      ∀ lg ∈ (run_factors (Option.some [[EF.fin 0]]) (Option.some [[EF.fin 0, EF.fin 0]])
        Option.none Option.none Option.none Option.none).layers,
        GridShape lg.2 rs.1 rs.2 :=
  C9_reference_shape _ _ _ _ _ _
    (fun g h => by cases h; decide)
    (fun g h => by cases h; decide)
    (fun g h => Option.noConfusion h)
    (fun g h => Option.noConfusion h)
    (fun g h => Option.noConfusion h)
    (fun g h => Option.noConfusion h)

/-! Claim C8 (confirmed): the normalize branch of `array_to_image`. -/

/-- C8 (confirmed): with `normalize=true` and effective bounds
`min_val = max_val`, the scaled intensity grid is uniformly 0; with
`min_val < max_val`, every pixel is the 8-bit cast of the affine rescale
to [0, 255] of the value clipped to `[min_val, max_val]` (after the
non-finite cleanup `nan_to_num`). -/
theorem C8_normalize (arr : Grid) :
    (∀ m : ℚ, normalized_intensity arr (Option.some m) (Option.some m) =
      arr.map (fun row => row.map (fun _ => 0))) ∧
    (∀ mn mx : ℚ, mn < mx →
      normalized_intensity arr (Option.some mn) (Option.some mx) =
        arr.map (fun row => row.map (fun v =>
          (ratTrunc (255 * (min mx (max mn (finPart (nan_to_num v))) - mn) /
            (mx - mn))).toNat % 256))) := by
  constructor
  · intro m
    unfold normalized_intensity
    simp only [Option.getD_some]
    rw [if_neg (by intro hc; exact hc rfl)]
    simp only [mapG, List.map_map]
    refine List.map_congr_left ?_
    intro row _
    simp only [List.map_map, Function.comp]
    refine List.map_congr_left ?_
    intro v _
    simp only [Function.comp_apply]
    show toUint8 (EF.mul (EF.fin 0) (EF.fin 255)) = 0
    show (ratTrunc (0 * 255)).toNat % 256 = 0
    norm_num [ratTrunc]
  · intro mn mx hlt
    have hne : mx - mn ≠ 0 := sub_ne_zero.mpr (ne_of_gt hlt)
    unfold normalized_intensity
    simp only [Option.getD_some]
    rw [if_pos (ne_of_gt hlt)]
    simp only [mapG, List.map_map]
    refine List.map_congr_left ?_
    intro row _
    simp only [List.map_map, Function.comp]
    refine List.map_congr_left ?_
    intro v _
    simp only [Function.comp_apply]
    obtain ⟨q, hq⟩ : ∃ q, nan_to_num v = EF.fin q := by
      cases v <;> exact ⟨_, rfl⟩
    rw [hq]
    show toUint8 (EF.mul (EF.div (EF.sub (EF.fin (min mx (max mn q))) (EF.fin mn))
      (EF.fin (mx - mn))) (EF.fin 255)) = (ratTrunc (255 * (min mx (max mn (finPart
      (EF.fin q))) - mn) / (mx - mn))).toNat % 256
    have hdiv : EF.div (EF.sub (EF.fin (min mx (max mn q))) (EF.fin mn))
        (EF.fin (mx - mn)) = EF.fin ((min mx (max mn q) - mn) / (mx - mn)) := by
      show EF.div (EF.fin (min mx (max mn q) + -mn)) (EF.fin (mx - mn)) = _
      simp only [EF.div, if_neg hne]
      congr 1
      ring
    rw [hdiv]
    show (ratTrunc ((min mx (max mn q) - mn) / (mx - mn) * 255)).toNat % 256 =
      (ratTrunc (255 * (min mx (max mn q) - mn) / (mx - mn))).toNat % 256
    have harg : (min mx (max mn q) - mn) / (mx - mn) * 255 =
        255 * (min mx (max mn q) - mn) / (mx - mn) := by
      ring
    rw [harg]

/-- C8 witness: the spec's two examples, grid `[[0, 10]]` with
`min_val = max_val = 5` (uniformly 0) and with `min_val = 0`,
`max_val = 10` (rescaled to `[[0, 255]]`). -/
theorem C8_witness :
    normalized_intensity [[EF.fin 0, EF.fin 10]] (Option.some 5) (Option.some 5) =
      [[0, 0]] ∧
    ((0 : ℚ) < 10 ∧
      normalized_intensity [[EF.fin 0, EF.fin 10]] (Option.some 0) (Option.some 10) =
        [[0, 255]]) := by
  constructor
  · rw [(C8_normalize [[EF.fin 0, EF.fin 10]]).1 5]
    rfl
  · refine ⟨by norm_num, ?_⟩
    rw [(C8_normalize [[EF.fin 0, EF.fin 10]]).2 0 10 (by norm_num)]
    norm_num [finPart, nan_to_num, ratTrunc]
    decide

end GeoBridge
